import Mathlib

/-!
The single-table access layer of personalisation-poc.

A shallow embedding of `repository/ddb` (key codec, entity converters, profile
store reads and writes), of `repository` (sentinel errors), of the derivation
of top categories in `model/fake.go`, and of the validation and the HTTP
handlers of `handlers.go`, followed by theorems about them.

Modelling conventions

* Go `string` is Lean `String`; `fmt.Sprintf("%s%s%s", a, b, c)` is `a ++ b ++ c`.
* A Go slice is a `List`; a nil slice and an empty one are the same list.
* Go `int64` seconds are `Int`; no operation here can overflow on a
  representable `time.Time`.
* A Go function returning `(T, error)` returns a pair whose second component
  is `Option GoError` (`none` is the nil error); a panic is the `Outcome.panic`
  constructor.
* Standard-library and third-party behaviour (`time`, `github.com/google/uuid`)
  is modelled by executable definitions that follow the library code; the
  store, the JSON codec, `sort.Slice`, the clock and the random source are
  arguments of the functions that call them.
-/

namespace PersonalisationPoc

/-! ## Go runtime: strings, errors, outcomes -/

/-- Go `strings.HasPrefix(s, p)`: `s` starts with `p`. -/
def HasPrefix (s p : String) : Bool := p.data.isPrefixOf s.data

/-- A Go `error` value. The two sentinels of package `repository` are
constructors of their own (they are compared by identity); `errorf` is an error
made by `fmt.Errorf` or `errors.New` from a format and its arguments, `wrapf`
one made by `fmt.Errorf` with a `%w` verb around `inner`, and `external` an
error produced by a library (store, JSON decoder). -/
inductive GoError where
  | ErrNoSegmentsFound : GoError
  | ErrNoProfileFound : GoError
  | errorf (format : String) (args : List String) : GoError
  | wrapf (format : String) (inner : GoError) : GoError
  | external (msg : String) : GoError
  deriving DecidableEq, Repr

/-- Go `errors.Is(err, target)` for a sentinel target: `err` is the target or
wraps it (through any number of `%w` layers). -/
def errorsIs : GoError → GoError → Bool
  | .wrapf f inner, target => decide (GoError.wrapf f inner = target) || errorsIs inner target
  | e, target => decide (e = target)

/-- The text of the two sentinels, `errors.New("...")` in `repository/repo.go`. -/
def sentinelText : GoError → Option String
  | .ErrNoSegmentsFound => some "no segments found"
  | .ErrNoProfileFound => some "no profile found"
  | _ => none

/-- What a Go call does: it returns a value or it panics. -/
inductive Outcome (α : Type) where
  | ret (a : α) : Outcome α
  | panic (msg : String) : Outcome α
  deriving DecidableEq, Repr

/-- `lo.Map(collection, f)`: applies `f` to every element and its index. -/
def loMapFrom {α β : Type} (f : α → Nat → β) : Nat → List α → List β
  | _, [] => []
  | i, x :: xs => f x i :: loMapFrom f (i + 1) xs

/-- `lo.Map` of `github.com/samber/lo`. -/
def loMap {α β : Type} (xs : List α) (f : α → Nat → β) : List β := loMapFrom f 0 xs

/-! ## Go `time` -/

/-- A `time.Time`: the instant as seconds since the Unix epoch plus
nanoseconds within the second, and the offset (seconds east of UTC) of its
location at that instant. The monotonic clock reading is not modelled; none
of the code here reads it. -/
structure Time where
  sec : Int
  nsec : Nat
  offset : Int
  deriving DecidableEq, Repr

/-- A `*time.Location` as the code uses it: the zone offset in effect at a
Unix instant. -/
abbrev Location := Int → Int

namespace Time

/-- The Unix second of year 1, January 1, 00:00:00 UTC. -/
def zeroSec : Int := -62135596800

/-- The zero `time.Time{}`. -/
def zero : Time := { sec := zeroSec, nsec := 0, offset := 0 }

/-- `t.IsZero()`. -/
def IsZero (t : Time) : Bool := decide (t.sec = zeroSec) && decide (t.nsec = 0)

/-- `t.Unix()`. -/
def Unix (t : Time) : Int := t.sec

/-- `t.Equal(u)`: the same instant, whatever the locations. -/
def Equal (t u : Time) : Bool := decide (t.sec = u.sec) && decide (t.nsec = u.nsec)

/-- `t.Truncate(time.Second)`: the sub-second part is dropped. -/
def TruncateSecond (t : Time) : Time := { t with nsec := 0 }

end Time

/-- `time.Unix(sec, nsec)`: the local `Time` of that instant. Out-of-range
`nsec` is carried into the seconds. -/
def timeUnix (loc : Location) (sec nsec : Int) : Time :=
  let s := sec + nsec / 1000000000
  { sec := s, nsec := (nsec % 1000000000).toNat, offset := loc s }

/-- The decimal digits of a natural number. -/
def decimal (n : Nat) : List Char := Nat.toDigits 10 n

/-- `appendInt(b, x, width)` of package `time`: a minus sign for a negative
`x`, then its magnitude zero-padded to `width` digits. -/
def appendInt (x : Int) (width : Nat) : List Char :=
  let ds := decimal x.natAbs
  (if x < 0 then ['-'] else []) ++ List.replicate (width - ds.length) '0' ++ ds

/-- Civil date (year, month, day) of a day count since 1970-01-01 in the
proleptic Gregorian calendar, as `absDate` computes it. -/
def civilFromDays (days : Int) : Int × Int × Int :=
  let z := days + 719468
  let era := z / 146097
  let doe := z % 146097
  let yoe := (doe - doe / 1460 + doe / 36524 - doe / 146096) / 365
  let doy := doe - (365 * yoe + yoe / 4 - yoe / 100)
  let mp := (5 * doy + 2) / 153
  let d := doy - (153 * mp + 2) / 5 + 1
  let m := if mp < 10 then mp + 3 else mp - 9
  let y := yoe + era * 400 + (if m ≤ 2 then 1 else 0)
  (y, m, d)

/-- The zone suffix of RFC 3339: `Z` for offset zero, else a sign and `hh:mm`
(the offset is cut to whole minutes toward zero). -/
def formatZone (offset : Int) : List Char :=
  if offset = 0 then ['Z']
  else
    let zone := Int.tdiv offset 60
    let sign := if zone < 0 then '-' else '+'
    let z := zone.natAbs
    sign :: (appendInt (z / 60 : Nat) 2 ++ ':' :: appendInt (z % 60 : Nat) 2)

/-- `t.Format(time.RFC3339)`, layout `2006-01-02T15:04:05Z07:00`. -/
def formatRFC3339 (t : Time) : String :=
  let abs := t.sec + t.offset
  let (y, m, d) := civilFromDays (abs / 86400)
  let secs := abs % 86400
  String.mk (appendInt y 4 ++ '-' :: appendInt m 2 ++ '-' :: appendInt d 2 ++ 'T' ::
    appendInt (secs / 3600) 2 ++ ':' :: appendInt (secs % 3600 / 60) 2 ++ ':' ::
    appendInt (secs % 60) 2 ++ formatZone t.offset)

/-! ## `repository/ddb/keys.go` -/

def keySeparator : String := "#"

def userItemKeyPrefix : String := "USER"

def segmentItemKeyPrefix : String := "SEG"

def blobItemKeyPrefix : String := "BLOB"

/-- `buildPK(id)`. -/
def buildPK (id : String) : String := userItemKeyPrefix ++ keySeparator ++ id

/-- `buildSK(itemPrefix, itemType, timestamp)`; a nil `timestamp` is `none`. -/
def buildSK (itemPrefix itemType : String) (timestamp : Option Time) : String :=
  match timestamp with
  | some ts => itemPrefix ++ keySeparator ++ itemType ++ keySeparator ++ formatRFC3339 ts
  | none => itemPrefix ++ keySeparator ++ itemType

/-! ## `github.com/google/uuid` -/

/-- A sequence of bytes (`[]byte`). -/
abbrev Bytes := List (Fin 256)

/-- A `uuid.UUID`, that is `[16]byte`. -/
structure UUID where
  bytes : Bytes
  size : bytes.length = 16
  deriving DecidableEq

namespace UUID

/-- `uuid.Nil`, the all-zero identifier. -/
def Nil : UUID := ⟨List.replicate 16 0, rfl⟩

/-- `hex.Encode`: two lower-case hexadecimal digits per byte. -/
def encodeHex (bs : Bytes) : List Char :=
  bs.flatMap fun b => [Nat.digitChar (b.val / 16), Nat.digitChar (b.val % 16)]

/-- An entry of the table `xvalues`: the value of a hexadecimal digit, `none`
for the table's 255. -/
def xvalue (c : Char) : Option Nat :=
  if '0' ≤ c ∧ c ≤ '9' then some (c.toNat - '0'.toNat)
  else if 'a' ≤ c ∧ c ≤ 'f' then some (c.toNat - 'a'.toNat + 10)
  else if 'A' ≤ c ∧ c ≤ 'F' then some (c.toNat - 'A'.toNat + 10)
  else none

/-- `xtob(x1, x2)`: the byte written by two hexadecimal digits. -/
def xtob (x1 x2 : Char) : Option (Fin 256) :=
  match xvalue x1, xvalue x2 with
  | some b1, some b2 => some (Fin.ofNat (b1 * 16 + b2))
  | _, _ => none

/-- A `UUID` from a byte list, when it has sixteen bytes. -/
def ofBytes (bs : Bytes) : Option UUID :=
  if h : bs.length = 16 then some ⟨bs, h⟩ else none

/-- The loop of `uuid.Parse` over digit positions: the byte at each position
`x` is `xtob(s[x], s[x+1])`, and one bad pair fails the whole parse. -/
def decodeAt (cs : List Char) : List Nat → Option Bytes
  | [] => some []
  | x :: rest =>
    match xtob (cs.getD x ' ') (cs.getD (x + 1) ' ') with
    | none => none
    | some b => (decodeAt cs rest).map (b :: ·)

/-- The digit positions of the dashed form. -/
def dashedPositions : List Nat := [0, 2, 4, 6, 9, 11, 14, 16, 19, 21, 24, 26, 28, 30, 32, 34]

/-- The digit positions of the 32-digit form, `i*2` for each byte `i`. -/
def plainPositions : List Nat := (List.range 16).map (· * 2)

/-- The tail of `uuid.Parse`: `cs` is 36 characters of the dashed form. -/
def parseDashed (cs : List Char) : Option UUID :=
  let c := fun i => cs.getD i ' '
  if c 8 ≠ '-' ∨ c 13 ≠ '-' ∨ c 18 ≠ '-' ∨ c 23 ≠ '-' then none
  else (decodeAt cs dashedPositions).bind ofBytes

/-- The 32-digit branch of `uuid.Parse`: sixteen bytes, no dashes. -/
def parsePlain (cs : List Char) : Option UUID :=
  (decodeAt cs plainPositions).bind ofBytes

/-- `uuid.Parse(s)`, `none` for its error. Go indexes bytes; a string holding
a character outside ASCII has a byte of 128 or more at a position the parser
checks, so it is rejected, and on ASCII text bytes and characters coincide. -/
def Parse (s : String) : Option UUID :=
  let cs := s.data
  if cs.any (fun c => 128 ≤ c.toNat) then none
  else if cs.length = 36 then parseDashed cs
  else if cs.length = 36 + 9 then
    if (cs.take 9).map Char.toLower ≠ "urn:uuid:".data then none else parseDashed (cs.drop 9)
  else if cs.length = 36 + 2 then parseDashed (cs.drop 1)
  else if cs.length = 32 then parsePlain cs
  else none

/-- `uuid.MustParse(s)`: like `Parse` but panics when `s` cannot be parsed. -/
def MustParse (s : String) : Outcome UUID :=
  match Parse s with
  | some u => .ret u
  | none => .panic ("uuid: Parse(" ++ s ++ "): invalid UUID")

/-- `uuid.String()`: the form `xxxxxxxx-xxxx-xxxx-xxxx-xxxxxxxxxxxx`. -/
def String (u : UUID) : String :=
  String.mk (encodeHex (u.bytes.take 4) ++ '-' :: encodeHex ((u.bytes.drop 4).take 2) ++
    '-' :: encodeHex ((u.bytes.drop 6).take 2) ++ '-' :: encodeHex ((u.bytes.drop 8).take 2) ++
    '-' :: encodeHex (u.bytes.drop 10))

end UUID

/-! ## `model/model.go` -/

/-- A Go `float64` value. The converters only copy scores. -/
inductive Float64 where
  | finite (q : ℚ) : Float64
  | negZero : Float64
  | posInf : Float64
  | negInf : Float64
  | nan : Float64
  deriving DecidableEq

/-- The `model.Category`. -/
structure Category where
  ID : String
  Score : Float64
  deriving DecidableEq

/-- The `model.Segment`; `Typ` is the Go field `Type`. -/
structure Segment where
  Typ : String
  Categories : List Category
  TopCategories : List String
  CreatedAt : Time
  UpdatedAt : Time
  ExpiresAt : Time
  deriving DecidableEq

/-- The `model.Profile`. -/
structure Profile where
  ID : UUID
  Tags : List String
  Segments : List Segment
  CreatedAt : Time
  UpdatedAt : Time
  ExpiresAt : Time
  deriving DecidableEq

/-! ## `repository/ddb`: storage items and converters -/

/-- The storage item of a profile's user record (`user.go`). -/
structure user where
  PK : String
  SK : String
  ItemType : String
  ID : String
  Tags : List String
  CreatedAt : Time
  UpdatedAt : Time
  TTL : Int
  deriving DecidableEq

/-- The stored form of a category (`segment.go`). -/
structure category where
  ID : String
  Score : Float64
  deriving DecidableEq

/-- The storage item of a segment (`segment.go`). -/
structure segment where
  PK : String
  SK : String
  ItemType : String
  SegmentType : String
  Categories : List category
  TopCategories : List String
  CreatedAt : Time
  UpdatedAt : Time
  TTL : Int
  deriving DecidableEq

/-- A decoded JSON document, what `json.Unmarshal` stores into an `any`. -/
inductive JSONValue where
  | null : JSONValue
  | bool (b : Bool) : JSONValue
  | number (x : Float64) : JSONValue
  | string (s : String) : JSONValue
  | array (xs : List JSONValue) : JSONValue
  | object (fields : List (String × JSONValue)) : JSONValue

/-- The storage item of a blob (`blob.go`). -/
structure blob where
  PK : String
  SK : String
  ItemType : String
  ID : String
  TTL : Int
  Data : JSONValue

/-- The zero value `blob{}`. -/
def blob.empty : blob :=
  { PK := "", SK := "", ItemType := "", ID := "", TTL := 0, Data := .null }

/-- `toDBUser(p)`. -/
def toDBUser (p : Profile) : user :=
  let id := p.ID.String
  { PK := buildPK id
    SK := buildSK userItemKeyPrefix id none
    ItemType := userItemKeyPrefix
    ID := id
    Tags := p.Tags
    CreatedAt := p.CreatedAt
    UpdatedAt := p.UpdatedAt
    TTL := p.ExpiresAt.Unix }

/-- `toCanonicalSegment(dbModel)`; `loc` is `time.Local`. -/
def toCanonicalSegment (loc : Location) (dbModel : segment) : Segment :=
  { Typ := dbModel.SegmentType
    Categories := loMap dbModel.Categories fun c _ => { ID := c.ID, Score := c.Score }
    TopCategories := dbModel.TopCategories
    CreatedAt := dbModel.CreatedAt
    UpdatedAt := dbModel.UpdatedAt
    ExpiresAt := timeUnix loc dbModel.TTL 0 }

/-- `toDBSegment(seg, profileID, segmentType)`. -/
def toDBSegment (seg : Segment) (profileID segmentType : String) : segment :=
  { PK := buildPK profileID
    SK := buildSK segmentItemKeyPrefix segmentType (some seg.CreatedAt)
    ItemType := segmentItemKeyPrefix
    SegmentType := seg.Typ
    Categories := loMap seg.Categories fun c _ => { ID := c.ID, Score := c.Score }
    TopCategories := seg.TopCategories
    CreatedAt := seg.CreatedAt
    UpdatedAt := seg.UpdatedAt
    TTL := seg.ExpiresAt.Unix }

/-- `toDBBlob(profileID, data)`. `jsonUnmarshal` is `json.Unmarshal` into an
`any`, and `expiry` is the reading `time.Now().AddDate(1, 0, 0)` of the call. -/
def toDBBlob (jsonUnmarshal : Bytes → Except GoError JSONValue) (expiry : Time)
    (profileID : String) (data : Bytes) : blob × Option GoError :=
  match jsonUnmarshal data with
  | .error err => (blob.empty, some err)
  | .ok jsonData =>
    ({ PK := buildPK profileID
       SK := buildSK blobItemKeyPrefix profileID none
       ItemType := blobItemKeyPrefix
       ID := profileID
       TTL := expiry.Unix
       Data := jsonData }, none)

/-- `toCanonicalProfile(u, ss)`; it panics when `uuid.MustParse` does. -/
def toCanonicalProfile (loc : Location) (u : user) (ss : List segment) : Outcome Profile :=
  match UUID.MustParse u.ID with
  | .panic msg => .panic msg
  | .ret id =>
    .ret { ID := id
           Tags := u.Tags
           Segments := loMap ss fun s _ => toCanonicalSegment loc s
           CreatedAt := u.CreatedAt
           UpdatedAt := u.UpdatedAt
           ExpiresAt := timeUnix loc u.TTL 0 }

/-- `toDBItems(p)`. -/
def toDBItems (p : Profile) : user × List segment :=
  (toDBUser p, loMap p.Segments fun s _ => toDBSegment s p.ID.String s.Typ)

/-! ## `repository/ddb/get.go` -/

/-- What `item[itemType].(*types.AttributeValueMemberS)` finds in a raw item:
the attribute is absent or not a string (the assertion fails), a nil string
member, or a string member with its value. -/
inductive TypAttr where
  | notString : TypAttr
  | nilString : TypAttr
  | str (value : String) : TypAttr
  deriving DecidableEq

/-- A raw partition item (`map[string]types.AttributeValue`) as
`GetProfileByID` observes it: its `typ` attribute and what
`dynamo.UnmarshalItem` makes of it when asked for a `user` and for a
`segment`. -/
structure Item where
  typ : TypAttr
  asUser : Except GoError user
  asSegment : Except GoError segment

/-- The loop `for iter.Next(ctx, &item)` of `GetProfileByID` over the items
the iterator yields, from the current `user` and `segments`: the error of the
first failing item, else the final `user` and `segments`. A second user item
replaces the first. -/
def scanItems : List Item → Option user → List segment →
    Except GoError (Option user × List segment)
  | [], u, segments => .ok (u, segments)
  | item :: rest, u, segments =>
    match item.typ with
    | .notString => .error (.errorf "invalid sort key" [])
    | .nilString => .error (.errorf "invalid sort key" [])
    | .str value =>
      if HasPrefix value userItemKeyPrefix then
        match item.asUser with
        | .error err => .error (.wrapf "unmarshal user: %w" err)
        | .ok u' => scanItems rest (some u') segments
      else if HasPrefix value segmentItemKeyPrefix then
        match item.asSegment with
        | .error err => .error (.wrapf "unmarshal sub profile: %w" err)
        | .ok segmt => scanItems rest u (segments ++ [segmt])
      else .error (.errorf "get profile: unknown item type: %s" [value])

/-- `DB.GetProfileByID(ctx, id)`. `iter` is `d.table.Get(partitionKey, pk).Iter()`:
for a partition key, the items the iterator yields and its final `iter.Err()`. -/
def GetProfileByID (loc : Location) (iter : String → List Item × Option GoError)
    (id : String) : Outcome (Option Profile × Option GoError) :=
  match scanItems (iter (buildPK id)).1 none [] with
  | .error err => .ret (none, some err)
  | .ok (u, segments) =>
    match (iter (buildPK id)).2 with
    | some err => .ret (none, some err)
    | none =>
      match u with
      | none => .ret (none, some .ErrNoProfileFound)
      | some u =>
        match toCanonicalProfile loc u segments with
        | .panic msg => .panic msg
        | .ret p => .ret (some p, none)

/-- The sort-key operators of `dynamo` used here. -/
inductive RangeOp where
  | Equal : RangeOp
  | BeginsWith : RangeOp
  deriving DecidableEq

/-- A single-item read `d.table.Get(pk).Range(sk, op, key).Project(...)`. -/
structure Query where
  pk : String
  op : RangeOp
  sk : String
  project : List String
  deriving DecidableEq

/-- The store's key condition: the query selects a stored item with keys
`(pk, sk)` when the partition keys are equal and the sort key equals, or
begins with, the query's. -/
def Query.selects (q : Query) (pk sk : String) : Bool :=
  decide (pk = q.pk) &&
    match q.op with
    | .Equal => decide (sk = q.sk)
    | .BeginsWith => HasPrefix sk q.sk

/-- The zero value `segment{}`. -/
def segment.empty : segment :=
  { PK := "", SK := "", ItemType := "", SegmentType := "", Categories := [],
    TopCategories := [], CreatedAt := Time.zero, UpdatedAt := Time.zero, TTL := 0 }

/-- The read that `DB.GetSegment` issues. -/
def getSegmentQuery (profileID segmentType : String) (createdAt : Time) : Query :=
  { pk := buildPK profileID, op := .BeginsWith,
    sk := buildSK segmentItemKeyPrefix segmentType (some createdAt), project := [] }

/-- `DB.GetSegment(ctx, profileID, segmentType, createdAt)`; `one` is
`One(ctx, &segment)`, which leaves `segment` zero when it fails. -/
def GetSegment (loc : Location) (one : Query → Except GoError segment)
    (profileID segmentType : String) (createdAt : Time) : Segment × Option GoError :=
  match one (getSegmentQuery profileID segmentType createdAt) with
  | .ok s => (toCanonicalSegment loc s, none)
  | .error err => (toCanonicalSegment loc segment.empty, some err)

/-- The read that `DB.GetCategories` issues. -/
def getCategoriesQuery (profileID segmentType : String) : Query :=
  { pk := buildPK profileID, op := .Equal,
    sk := buildSK segmentItemKeyPrefix segmentType none, project := ["cats"] }

/-- `DB.GetCategories(ctx, profileID, segmentType)`; `one` is
`One(ctx, &categories)` with what it decoded before returning. -/
def GetCategories (one : Query → List category × Option GoError)
    (profileID segmentType : String) : List Category × Option GoError :=
  let r := one (getCategoriesQuery profileID segmentType)
  (loMap r.1 fun cat _ => { ID := cat.ID, Score := cat.Score }, r.2)

/-- A value held in a `map[string]any`, as far as the type assertion
`.([]string)` tells values apart. -/
inductive AnyValue where
  | strings (xs : List String) : AnyValue
  | other : AnyValue
  deriving DecidableEq

/-- The read that `DB.GetTopCategories` issues. -/
def getTopCategoriesQuery (profileID segmentType : String) : Query :=
  { pk := buildPK profileID, op := .Equal,
    sk := buildSK segmentItemKeyPrefix segmentType none, project := ["top_cats"] }

/-- `DB.GetTopCategories(ctx, profileID, segmentType)`; `one` is
`One(ctx, &topCategories)`: the decoded map and the call's error. -/
def GetTopCategories (one : Query → List (String × AnyValue) × Option GoError)
    (profileID segmentType : String) : Option (List String) × Option GoError :=
  let r := one (getTopCategoriesQuery profileID segmentType)
  match r.1.lookup "top_cats" with
  | some (.strings topCategoryList) => (some topCategoryList, r.2)
  | _ => (none, some (.errorf "invalid top categories" []))

/-! ## `handlers.go` -/

def StatusOK : Nat := 200

def StatusBadRequest : Nat := 400

def StatusNotFound : Nat := 404

def StatusInternalServerError : Nat := 500

/-- What a handler wrote: the status, the error given to `httpError` if any,
and the encoded payload if any. -/
structure Response (α : Type) where
  status : Nat
  err : Option GoError
  body : Option α

/-- `handleGetProfile(repo, log)` on a request whose path value `id` is `id`;
`getProfileByID` is `repo.GetProfileByID`. -/
def handleGetProfile (getProfileByID : String → Outcome (Option Profile × Option GoError))
    (id : String) : Outcome (Response Profile) :=
  if id = "" then
    .ret { status := StatusBadRequest, err := some (.errorf "id is required" []), body := none }
  else
    match getProfileByID id with
    | .panic msg => .panic msg
    | .ret (_, some err) =>
      if errorsIs err .ErrNoProfileFound then
        .ret { status := StatusNotFound, err := some err, body := none }
      else
        .ret { status := StatusInternalServerError, err := some err, body := none }
    | .ret (profile, none) => .ret { status := StatusOK, err := none, body := profile }

/-- `handleGetSegment(repo, log)` on a request with path values `id` and
`segmentType` and query parameter `createdAt` equal to `timestamp` (empty when
the parameter is omitted); `timeParse` is `time.Parse(time.RFC3339, _)` and
`getSegment` is `repo.GetSegment`. -/
def handleGetSegment (timeParse : String → Except GoError Time)
    (getSegment : String → String → Time → Segment × Option GoError)
    (id segmentType timestamp : String) : Response Segment :=
  if id = "" then
    { status := StatusBadRequest, err := some (.errorf "id is required" []), body := none }
  else if segmentType = "" then
    { status := StatusBadRequest, err := some (.errorf "segmentType is required" []),
      body := none }
  else
    match (if timestamp ≠ "" then timeParse timestamp else .ok Time.zero) with
    | .error err => { status := StatusBadRequest, err := some err, body := none }
    | .ok createdAt =>
      match getSegment id segmentType createdAt with
      | (_, some err) =>
        if errorsIs err .ErrNoSegmentsFound then
          { status := StatusNotFound, err := some err, body := none }
        else
          { status := StatusInternalServerError, err := some err, body := none }
      | (segment, none) => { status := StatusOK, err := none, body := some segment }

/-! ## `model/fake.go`: the top-categories derivation -/

/-- The value of a finite `float64` (zero for the other cases, which `gt`
settles before it asks). -/
def Float64.num : Float64 → ℚ
  | .finite q => q
  | _ => 0

/-- Go `a > b` on `float64`: false when either side is NaN, the infinities
at the ends, the two zeros equal. -/
def Float64.gt : Float64 → Float64 → Bool
  | .nan, _ => false
  | _, .nan => false
  | .posInf, .posInf => false
  | .posInf, _ => true
  | _, .posInf => false
  | .negInf, _ => false
  | _, .negInf => true
  | a, b => decide (b.num < a.num)

/-- The `less` function that `extractTopCategories` gives `sort.Slice`:
`categories[i].Score > categories[j].Score`. -/
def scoreLess (a b : Category) : Bool := a.Score.gt b.Score

/-- `extractTopCategories(categories)`. `sortSlice` is `sort.Slice`, which
rearranges the slice in place, so the result is the pair of the slice as the
call leaves it and the returned IDs. -/
def extractTopCategories
    (sortSlice : (Category → Category → Bool) → List Category → List Category)
    (categories : List Category) : List Category × List String :=
  let sorted := sortSlice scoreLess categories
  if sorted.length < 3 then
    (sorted, loMap sorted fun category _ => category.ID)
  else
    (sorted, (sorted.take 3).map fun category => category.ID)

/-! ## `handlers.go`: validation of an inbound profile -/

/-- Days since 1970-01-01 of a civil date in the proleptic Gregorian calendar;
a day of the month outside the month counts on into the neighbouring months,
as in `time.Date`. -/
def daysFromCivil (y m d : Int) : Int :=
  let y1 := if m ≤ 2 then y - 1 else y
  let era := y1 / 400
  let yoe := y1 % 400
  let mp := if 2 < m then m - 3 else m + 9
  let doy := (153 * mp + 2) / 5 + d - 1
  let doe := yoe * 365 + yoe / 4 - yoe / 100 + doy
  era * 146097 + doe - 719468

/-- `t.AddDate(years, months, days)` for a `t` in location `loc`: the civil
date of `t` moved by the given amounts, months overflowing into years and days
into months, at the same clock time; the wall time is turned into an instant
with the zone offset `time.Date` finds for it. -/
def Time.AddDate (loc : Location) (t : Time) (years months days : Int) : Time :=
  let abs := t.sec + t.offset
  let (y, m, d) := civilFromDays (abs / 86400)
  let secs := abs % 86400
  let m0 := m - 1 + months
  let year := y + years + m0 / 12
  let month := m0 % 12 + 1
  let wall := daysFromCivil year month (d + days) * 86400 + secs
  let offset := if loc wall ≠ 0 then loc (wall - loc wall) else 0
  let unix := wall - offset
  { sec := unix, nsec := t.nsec, offset := loc unix }

/-- `uuid.New()` from the sixteen random bytes it draws: version 4 and the
RFC 4122 variant are written into bytes 6 and 8. -/
def uuidNew (random : UUID) : UUID :=
  ⟨(random.bytes.set 6 (Fin.ofNat ((random.bytes.getD 6 0).val % 16 + 64))).set 8
      (Fin.ofNat ((random.bytes.getD 8 0).val % 64 + 128)),
    by simp [random.size]⟩

/-- The wall clock during one call: the reading of the `k`-th `time.Now()`. -/
abbrev Clock := Nat → Time

/-- The function `validateUpsertProfile` maps over the segments, on one
segment; `n` counts the clock readings taken so far. -/
def validateSegment (loc : Location) (clock : Clock) (n : Nat) (segment : Segment) :
    Segment × Nat :=
  let c := if segment.CreatedAt.IsZero then (clock n, n + 1) else (segment.CreatedAt, n)
  let u := if segment.UpdatedAt.IsZero then (clock c.2, c.2 + 1) else (segment.UpdatedAt, c.2)
  let e := if segment.ExpiresAt.IsZero then ((clock u.2).AddDate loc 0 6 0, u.2 + 1)
    else (segment.ExpiresAt, u.2)
  ({ segment with CreatedAt := c.1, UpdatedAt := u.1, ExpiresAt := e.1 }, e.2)

/-- The `lo.Map` of `validateUpsertProfile` over the segments, in order, from
clock reading `n`. -/
def validateSegments (loc : Location) (clock : Clock) : Nat → List Segment → List Segment × Nat
  | n, [] => ([], n)
  | n, segment :: rest =>
    let r := validateSegment loc clock n segment
    let rs := validateSegments loc clock r.2 rest
    (r.1 :: rs.1, rs.2)

/-- `validateUpsertProfile(profile)`; the result is the profile as the call
leaves it. `random` is the randomness `uuid.New()` draws and `clock` the
readings of `time.Now()`, which are local times of `loc`. -/
def validateUpsertProfile (loc : Location) (random : UUID) (clock : Clock)
    (profile : Profile) : Profile :=
  let id := if profile.ID = UUID.Nil then uuidNew random else profile.ID
  let c := if profile.CreatedAt.IsZero then (clock 0, 1) else (profile.CreatedAt, 0)
  let u := if profile.UpdatedAt.IsZero then (clock c.2, c.2 + 1) else (profile.UpdatedAt, c.2)
  let e := if profile.ExpiresAt.IsZero then ((clock u.2).AddDate loc 1 0 0, u.2 + 1)
    else (profile.ExpiresAt, u.2)
  { ID := id, Tags := profile.Tags
    Segments := (validateSegments loc clock e.2 profile.Segments).1
    CreatedAt := c.1, UpdatedAt := u.1, ExpiresAt := e.1 }

/-! ## `repository/ddb`: tags and blobs -/

/-- The read that `DB.GetUserTags` issues. -/
def getUserTagsQuery (profileID : String) : Query :=
  { pk := buildPK profileID, op := .Equal,
    sk := buildSK userItemKeyPrefix profileID none, project := ["tags"] }

/-- `DB.GetUserTags(ctx, profileID)`; `one` is `One(ctx, &tags)`: the decoded
map and the call's error. A nil tag list is `none`. -/
def GetUserTags (one : Query → List (String × AnyValue) × Option GoError)
    (profileID : String) : Option (List String) × Option GoError :=
  let r := one (getUserTagsQuery profileID)
  match r.1.lookup "tags" with
  | some (.strings tagList) => (some tagList, r.2)
  | _ => (none, some (.errorf "invalid tags" []))

/-- The read that `DB.GetRawSegmentsFromBlob` issues. -/
def getRawSegmentsQuery (profileID : String) : Query :=
  { pk := buildPK profileID, op := .Equal,
    sk := buildSK blobItemKeyPrefix profileID none, project := ["rawdata.'segments'"] }

/-- `DB.GetRawSegmentsFromBlob(ctx, profileID)`; `one` is `One(ctx, &result)`:
the fields of `result.RawData` (none for a nil map) and the call's error, and
`jsonMarshal` is `json.Marshal`. -/
def GetRawSegmentsFromBlob (jsonMarshal : JSONValue → Except GoError Bytes)
    (one : Query → List (String × JSONValue) × Option GoError)
    (profileID : String) : Option Bytes × Option GoError :=
  let r := one (getRawSegmentsQuery profileID)
  match r.2 with
  | some err => (none, some (.wrapf "failed to get segments from blob: %w" err))
  | none =>
    match r.1.lookup "segments" with
    | none => (none, some .ErrNoSegmentsFound)
    | some segmentsData =>
      match jsonMarshal segmentsData with
      | .ok bytes => (some bytes, none)
      | .error err => (none, some err)

/-- `DB.UpsertBlob(ctx, profileID, data)`: the items it puts to the store and
its error; `putRun` is `d.table.Put(blob).Run(ctx)`. -/
def UpsertBlob (jsonUnmarshal : Bytes → Except GoError JSONValue) (expiry : Time)
    (putRun : blob → Option GoError) (profileID : String) (data : Bytes) :
    List blob × Option GoError :=
  match toDBBlob jsonUnmarshal expiry profileID data with
  | (_, some err) => ([], some (.wrapf "failed to parse blob data: %w" err))
  | (b, none) =>
    match putRun b with
    | some err => ([b], some (.wrapf "failed to write blob: %w" err))
    | none => ([b], none)

/-! ## `handlers.go`: blobs -/

def StatusCreated : Nat := 201

/-- `handleUpsertBlob(repo, log)`: the response and the items put to the
store. `readAll` is `io.ReadAll(r.Body)`, `decodeProfile` is
`json.NewDecoder(...).Decode(&profile)` on the body, and `upsertBlob` is
`repo.UpsertBlob`. -/
def handleUpsertBlob (readAll : Except GoError Bytes)
    (decodeProfile : Bytes → Except GoError Profile)
    (upsertBlob : String → Bytes → List blob × Option GoError) :
    Response Unit × List blob :=
  match readAll with
  | .error err => ({ status := StatusBadRequest, err := some err, body := none }, [])
  | .ok data =>
    match decodeProfile data with
    | .error err => ({ status := StatusBadRequest, err := some err, body := none }, [])
    | .ok profile =>
      match upsertBlob profile.ID.String data with
      | (puts, some err) =>
        ({ status := StatusInternalServerError, err := some err, body := none }, puts)
      | (puts, none) => ({ status := StatusCreated, err := none, body := none }, puts)

/-- `handleGetSegmentsFromBlob(repo, log)` on a request whose path value `id`
is `id`; `getRawSegmentsFromBlob` is `repo.GetRawSegmentsFromBlob`. -/
def handleGetSegmentsFromBlob
    (getRawSegmentsFromBlob : String → Option Bytes × Option GoError) (id : String) :
    Response Bytes :=
  if id = "" then
    { status := StatusBadRequest, err := some (.errorf "id is required" []), body := none }
  else
    match getRawSegmentsFromBlob id with
    | (_, some err) => { status := StatusInternalServerError, err := some err, body := none }
    | (segments, none) => { status := StatusOK, err := none, body := segments }

/-! ## Vocabulary of the statements -/

/-- The three item-kind prefixes. -/
def itemKinds : List String := [userItemKeyPrefix, segmentItemKeyPrefix, blobItemKeyPrefix]

/-- The raw item `item` is the stored user `u` and decodes to it. -/
def storedUser (u : user) (item : Item) : Prop :=
  item.typ = .str u.ItemType ∧ item.asUser = .ok u

/-- The raw item `item` is the stored segment `s` and decodes to it. -/
def storedSegment (s : segment) (item : Item) : Prop :=
  item.typ = .str s.ItemType ∧ item.asSegment = .ok s

/-- The segment an item contributes to a scan, if it is classified as a
segment and decodes. -/
def Item.segment? (item : Item) : Option segment :=
  match item.typ, item.asSegment with
  | .str value, .ok s =>
    if HasPrefix value userItemKeyPrefix then none
    else if HasPrefix value segmentItemKeyPrefix then some s
    else none
  | _, _ => none

/-- The decoded segment items of a scan, in scan order. -/
def segmentsOf (scan : List Item) : List segment := scan.filterMap Item.segment?

/-- The item is classified as a user or as a segment and decodes as such, so
the scan loop goes past it. -/
def Item.scansCleanly (item : Item) : Prop :=
  ∃ value, item.typ = .str value ∧
    ((HasPrefix value userItemKeyPrefix = true ∧ ∃ u, item.asUser = .ok u) ∨
     (HasPrefix value userItemKeyPrefix = false ∧ HasPrefix value segmentItemKeyPrefix = true ∧
        ∃ s, item.asSegment = .ok s))

/-- The item is an orphan segment item: its type starts with `SEG`, not with
`USER`, and it decodes. -/
def Item.isOrphanSegment (item : Item) : Prop :=
  ∃ value, item.typ = .str value ∧ HasPrefix value userItemKeyPrefix = false ∧
    HasPrefix value segmentItemKeyPrefix = true ∧ ∃ s, item.asSegment = .ok s

/-- The item's type starts with neither `USER` nor `SEG`. -/
def Item.isUnknown (item : Item) (value : String) : Prop :=
  item.typ = .str value ∧ HasPrefix value userItemKeyPrefix = false ∧
    HasPrefix value segmentItemKeyPrefix = false

/-- The three timestamps of the segment are set (none is the zero time). -/
def Segment.timesSet (s : Segment) : Bool :=
  !s.CreatedAt.IsZero && !s.UpdatedAt.IsZero && !s.ExpiresAt.IsZero

/-- Every field that `validateUpsertProfile` looks at is set: the ID is not
nil and no timestamp of the profile or of a segment is zero. -/
def Profile.allSet (p : Profile) : Bool :=
  decide (p.ID ≠ UUID.Nil) && !p.CreatedAt.IsZero && !p.UpdatedAt.IsZero &&
    !p.ExpiresAt.IsZero && p.Segments.all Segment.timesSet

/-- The segment `v` is the segment `s` with its unset timestamps filled from
the clock: Type, Categories and TopCategories are those of `s`; a set timestamp
is kept; an unset CreatedAt or UpdatedAt is a clock reading and an unset
ExpiresAt is a clock reading moved six months on. -/
def Segment.filledFrom (loc : Location) (clock : Clock) (v s : Segment) : Prop :=
  v.Typ = s.Typ ∧ v.Categories = s.Categories ∧ v.TopCategories = s.TopCategories ∧
  (if s.CreatedAt.IsZero then ∃ k, v.CreatedAt = clock k else v.CreatedAt = s.CreatedAt) ∧
  (if s.UpdatedAt.IsZero then ∃ k, v.UpdatedAt = clock k else v.UpdatedAt = s.UpdatedAt) ∧
  (if s.ExpiresAt.IsZero then ∃ k, v.ExpiresAt = (clock k).AddDate loc 0 6 0
    else v.ExpiresAt = s.ExpiresAt)

/-- The segment `s` with each unset timestamp filled from the one reading
`now`. -/
def Segment.filledAt (loc : Location) (now : Time) (s : Segment) : Segment :=
  { s with
    CreatedAt := if s.CreatedAt.IsZero then now else s.CreatedAt
    UpdatedAt := if s.UpdatedAt.IsZero then now else s.UpdatedAt
    ExpiresAt := if s.ExpiresAt.IsZero then now.AddDate loc 0 6 0 else s.ExpiresAt }

/-! ## Sample values -/

/-- 2024-01-01T00:00:00Z. -/
def sampleTime : Time := { sec := 1704067200, nsec := 0, offset := 0 }

/-- 2024-07-01T00:00:00.25Z. -/
def sampleExpiry : Time := { sec := 1719792000, nsec := 250000000, offset := 0 }

def sampleID : UUID :=
  ⟨[0x12, 0x34, 0xab, 0xcd, 0xef, 0, 1, 2, 3, 4, 5, 6, 7, 8, 9, 255], rfl⟩

def sampleSegment : Segment :=
  { Typ := "morning"
    Categories := [{ ID := "news", Score := .finite (17 / 20) },
                   { ID := "sports", Score := .finite (13 / 20) }]
    TopCategories := ["news", "sports"]
    CreatedAt := sampleTime, UpdatedAt := sampleTime, ExpiresAt := sampleExpiry }

def sampleProfile : Profile :=
  { ID := sampleID, Tags := ["test_tag", "profile_test"], Segments := [sampleSegment]
    CreatedAt := sampleTime, UpdatedAt := sampleTime, ExpiresAt := sampleExpiry }

/-- The stored user item of `sampleProfile`. -/
def sampleUserItem : Item :=
  { typ := .str userItemKeyPrefix, asUser := .ok (toDBItems sampleProfile).1,
    asSegment := .error (.external "not a segment") }

/-- The stored item of `sampleSegment` in the partition of `sampleProfile`. -/
def sampleSegmentItem : Item :=
  { typ := .str segmentItemKeyPrefix, asUser := .error (.external "not a user"),
    asSegment := .ok (toDBSegment sampleSegment sampleID.String sampleSegment.Typ) }

/-- A stored blob item as the scan sees it. -/
def sampleBlobItem : Item :=
  { typ := .str blobItemKeyPrefix, asUser := .error (.external "not a user"),
    asSegment := .error (.external "not a segment") }

/-- The stored item of `sampleSegment` in partition `p`. -/
def sampleStored : segment := toDBSegment sampleSegment "p" sampleSegment.Typ

/-- `One(ctx, &segment)` on a table that holds `sampleStored` and nothing
else: the item if the query selects it, else the store's not-found error. -/
def sampleOne (q : Query) : Except GoError segment :=
  if q.selects sampleStored.PK sampleStored.SK then .ok sampleStored
  else .error (.external "dynamo: no item found")

/-- A user item whose ID text is not an identifier. -/
def sampleBadUser : user := { (toDBItems sampleProfile).1 with ID := "not-a-uuid" }

/-- The raw item of `sampleBadUser`. -/
def sampleBadUserItem : Item :=
  { typ := .str userItemKeyPrefix, asUser := .ok sampleBadUser,
    asSegment := .error (.external "not a segment") }

/-- The bytes of the request body `{} x`: a JSON value followed by text. -/
def sampleTrailingBody : Bytes := [123, 125, 32, 120]

/-- Insertion of `x` before the first element it is `less` than. -/
def insertSorted {α : Type} (less : α → α → Bool) (x : α) : List α → List α
  | [] => [x]
  | y :: ys => if less x y then x :: y :: ys else y :: insertSorted less x ys

/-- One sort that `sort.Slice` may be: an insertion sort. -/
def sampleSortSlice {α : Type} (less : α → α → Bool) (xs : List α) : List α :=
  xs.foldr (insertSorted less) []

/-- The categories of the derivation example: scores 0.85, 0.65, 0.92, 0.78,
each taken at its decimal value. -/
def sampleCategories : List Category :=
  [{ ID := "news", Score := .finite (17 / 20) }, { ID := "sports", Score := .finite (13 / 20) },
   { ID := "ent", Score := .finite (23 / 25) }, { ID := "tech", Score := .finite (39 / 50) }]

/-- The example's categories by descending score. -/
def sampleCategoriesDescending : List Category :=
  [{ ID := "ent", Score := .finite (23 / 25) }, { ID := "news", Score := .finite (17 / 20) },
   { ID := "tech", Score := .finite (39 / 50) }, { ID := "sports", Score := .finite (13 / 20) }]

/-- An inbound segment as decoded from JSON that gives only the type and
the categories. -/
def sampleInboundSegment : Segment :=
  { Typ := "morning", Categories := sampleCategories, TopCategories := [],
    CreatedAt := Time.zero, UpdatedAt := Time.zero, ExpiresAt := Time.zero }

/-- An inbound profile with no ID and no timestamps. -/
def sampleInbound : Profile :=
  { ID := UUID.Nil, Tags := ["test_tag"], Segments := [sampleInboundSegment],
    CreatedAt := Time.zero, UpdatedAt := Time.zero, ExpiresAt := Time.zero }

/-- A clock that reads 2024-01-01T00:00:00Z, then a second later at each
reading. -/
def sampleClock : Clock := fun k => { sampleTime with sec := sampleTime.sec + k }

/-- The sample segment created in the same second, five nanoseconds later. -/
def sampleSegmentLater : Segment :=
  { sampleSegment with CreatedAt := { sampleTime with nsec := 5 } }

/-- A profile with a morning and an evening segment created at the same time. -/
def sampleTwoSegments : Profile :=
  { sampleProfile with Segments := [sampleSegment, { sampleSegment with Typ := "evening" }] }

/-- A decoder that accepts every body as the JSON `null`. -/
def sampleUnmarshal : Bytes → Except GoError JSONValue := fun _ => .ok .null

end PersonalisationPoc

namespace PersonalisationPoc

/-! ## Lemmas: `lo.Map`, identifiers -/

theorem loMapFrom_const {α β : Type} (g : α → β) (xs : List α) (i : Nat) :
    loMapFrom (fun x _ => g x) i xs = xs.map g := by
  induction xs generalizing i with
  | nil => rfl
  | cons x xs ih => simp [loMapFrom, ih]

@[simp] theorem loMap_const {α β : Type} (g : α → β) (xs : List α) :
    loMap xs (fun x _ => g x) = xs.map g :=
  loMapFrom_const g xs 0

set_option maxRecDepth 100000 in
theorem xtob_digits (b : Fin 256) :
    UUID.xtob (Nat.digitChar (b.val / 16)) (Nat.digitChar (b.val % 16)) = some b := by
  revert b
  decide

set_option maxRecDepth 100000 in
theorem digit_ascii (b : Fin 256) :
    (Nat.digitChar (b.val / 16)).toNat < 128 ∧ (Nat.digitChar (b.val % 16)).toNat < 128 := by
  revert b
  decide

theorem list_length_sixteen {α : Type} (l : List α) (h : l.length = 16) :
    ∃ b0 b1 b2 b3 b4 b5 b6 b7 b8 b9 b10 b11 b12 b13 b14 b15,
      l = [b0, b1, b2, b3, b4, b5, b6, b7, b8, b9, b10, b11, b12, b13, b14, b15] := by
  match l, h with
  | [b0, b1, b2, b3, b4, b5, b6, b7, b8, b9, b10, b11, b12, b13, b14, b15], _ =>
    exact ⟨b0, b1, b2, b3, b4, b5, b6, b7, b8, b9, b10, b11, b12, b13, b14, b15, rfl⟩

theorem UUID.parse_string (u : UUID) : UUID.Parse u.String = some u := by
  obtain ⟨l, hl⟩ := u
  obtain ⟨b0, b1, b2, b3, b4, b5, b6, b7, b8, b9, b10, b11, b12, b13, b14, b15, rfl⟩ :=
    list_length_sixteen l hl
  have a0 := digit_ascii b0
  have a1 := digit_ascii b1
  have a2 := digit_ascii b2
  have a3 := digit_ascii b3
  have a4 := digit_ascii b4
  have a5 := digit_ascii b5
  have a6 := digit_ascii b6
  have a7 := digit_ascii b7
  have a8 := digit_ascii b8
  have a9 := digit_ascii b9
  have a10 := digit_ascii b10
  have a11 := digit_ascii b11
  have a12 := digit_ascii b12
  have a13 := digit_ascii b13
  have a14 := digit_ascii b14
  have a15 := digit_ascii b15
  simp [UUID.Parse, UUID.String, UUID.encodeHex, UUID.parseDashed, UUID.decodeAt,
    UUID.dashedPositions, UUID.ofBytes, xtob_digits, a0, a1, a2, a3, a4, a5, a6, a7, a8, a9,
    a10, a11, a12, a13, a14, a15]

theorem UUID.mustParse_string (u : UUID) : UUID.MustParse u.String = .ret u := by
  simp [UUID.MustParse, UUID.parse_string]

/-! ## Round trips through the storage form -/

theorem category_map_back (cs : List Category) :
    (cs.map fun c => ({ ID := c.ID, Score := c.Score } : category)).map
      (fun c => ({ ID := c.ID, Score := c.Score } : Category)) = cs := by
  induction cs with
  | nil => rfl
  | cons c cs ih => simp [ih]

theorem timeUnix_whole (loc : Location) (s : Int) :
    timeUnix loc s 0 = { sec := s, nsec := 0, offset := loc s } := by
  simp [timeUnix]

theorem segment_back (loc : Location) (S : Segment) (profileID segmentType : String) :
    toCanonicalSegment loc (toDBSegment S profileID segmentType) =
      { S with ExpiresAt := timeUnix loc S.ExpiresAt.Unix 0 } := by
  simp only [toCanonicalSegment, toDBSegment, loMap_const, category_map_back]

/-- C1: for every profile `P`, `toCanonicalProfile` applied to the items of
`toDBItems P` returns (it does not panic) the profile `P` with `ExpiresAt` of
the profile and of every segment replaced by `time.Unix(ExpiresAt.Unix(), 0)`:
ID, Tags, the number and order of segments, each segment's Type, Categories and
TopCategories are equal to those of `P`, and every timestamp is the same
instant as in `P` once both are truncated to whole seconds. -/
theorem toCanonicalProfile_toDBItems (loc : Location) (P : Profile) :
    ∃ Q : Profile,
      toCanonicalProfile loc (toDBItems P).1 (toDBItems P).2 = .ret Q ∧
      Q = { P with
            Segments := P.Segments.map fun s =>
              { s with ExpiresAt := timeUnix loc s.ExpiresAt.Unix 0 }
            ExpiresAt := timeUnix loc P.ExpiresAt.Unix 0 } ∧
      Q.ID = P.ID ∧ Q.Tags = P.Tags ∧
      Q.Segments.length = P.Segments.length ∧
      List.Forall₂
        (fun q s : Segment =>
          q.Typ = s.Typ ∧ q.Categories = s.Categories ∧ q.TopCategories = s.TopCategories ∧
          q.CreatedAt.TruncateSecond.Equal s.CreatedAt.TruncateSecond = true ∧
          q.UpdatedAt.TruncateSecond.Equal s.UpdatedAt.TruncateSecond = true ∧
          q.ExpiresAt.TruncateSecond.Equal s.ExpiresAt.TruncateSecond = true)
        Q.Segments P.Segments ∧
      Q.CreatedAt.TruncateSecond.Equal P.CreatedAt.TruncateSecond = true ∧
      Q.UpdatedAt.TruncateSecond.Equal P.UpdatedAt.TruncateSecond = true ∧
      Q.ExpiresAt.TruncateSecond.Equal P.ExpiresAt.TruncateSecond = true := by
  refine ⟨_, ?_, rfl, rfl, rfl, by simp, ?_, ?_, ?_, ?_⟩
  · simp [toCanonicalProfile, toDBItems, toDBUser, UUID.mustParse_string, List.map_map,
      Function.comp_def, segment_back]
  · simp only [List.forall₂_map_left_iff]
    exact List.forall₂_same.mpr fun s _ => by
      simp [Time.Equal, Time.TruncateSecond, timeUnix_whole, Time.Unix]
  · simp [Time.Equal, Time.TruncateSecond]
  · simp [Time.Equal, Time.TruncateSecond]
  · simp [Time.Equal, Time.TruncateSecond, timeUnix_whole, Time.Unix]

/-- C5: for every segment `S` and profile ID, the storage round trip
`toCanonicalSegment (toDBSegment S profileID S.Type)` keeps Type, Categories,
TopCategories, CreatedAt and UpdatedAt, and its ExpiresAt is
`time.Unix(S.ExpiresAt.Unix(), 0)`: the Unix second of `S.ExpiresAt` with a zero
sub-second part, the instant of `S.ExpiresAt` truncated to the second. A second
round trip returns the result of the first unchanged. -/
theorem toCanonicalSegment_toDBSegment (loc : Location) (S : Segment) (profileID : String) :
    (toCanonicalSegment loc (toDBSegment S profileID S.Typ)).Typ = S.Typ ∧
    (toCanonicalSegment loc (toDBSegment S profileID S.Typ)).Categories = S.Categories ∧
    (toCanonicalSegment loc (toDBSegment S profileID S.Typ)).TopCategories = S.TopCategories ∧
    (toCanonicalSegment loc (toDBSegment S profileID S.Typ)).CreatedAt = S.CreatedAt ∧
    (toCanonicalSegment loc (toDBSegment S profileID S.Typ)).UpdatedAt = S.UpdatedAt ∧
    (toCanonicalSegment loc (toDBSegment S profileID S.Typ)).ExpiresAt =
      timeUnix loc S.ExpiresAt.Unix 0 ∧
    (toCanonicalSegment loc (toDBSegment S profileID S.Typ)).ExpiresAt.Unix = S.ExpiresAt.Unix ∧
    (toCanonicalSegment loc (toDBSegment S profileID S.Typ)).ExpiresAt.nsec = 0 ∧
    (toCanonicalSegment loc (toDBSegment S profileID S.Typ)).ExpiresAt.Equal
      S.ExpiresAt.TruncateSecond = true ∧
    toCanonicalSegment loc
        (toDBSegment (toCanonicalSegment loc (toDBSegment S profileID S.Typ)) profileID
          (toCanonicalSegment loc (toDBSegment S profileID S.Typ)).Typ) =
      toCanonicalSegment loc (toDBSegment S profileID S.Typ) := by
  simp [segment_back, timeUnix_whole, Time.Unix, Time.Equal, Time.TruncateSecond]

/-! ## Keys -/

theorem buildPK_data (id : String) : (buildPK id).data = 'U' :: 'S' :: 'E' :: 'R' :: '#' :: id.data := by
  simp [buildPK, userItemKeyPrefix, keySeparator]

theorem buildSK_data (p d : String) (t : Option Time) :
    (buildSK p d t).data =
      p.data ++ '#' :: (d.data ++ match t with
        | some ts => '#' :: (formatRFC3339 ts).data
        | none => []) := by
  cases t <;> simp [buildSK, keySeparator]

theorem split_at_separator (a b x y : List Char) (ha : '#' ∉ a) (hb : '#' ∉ b)
    (h : a ++ '#' :: x = b ++ '#' :: y) : a = b ∧ x = y := by
  induction a generalizing b with
  | nil =>
    cases b with
    | nil => simpa using h
    | cons c b =>
      simp only [List.nil_append, List.cons_append, List.cons.injEq] at h
      exact absurd h.1 (by intro hc; exact hb (by simp [← hc]))
  | cons c a ih =>
    cases b with
    | nil =>
      simp only [List.nil_append, List.cons_append, List.cons.injEq] at h
      exact absurd h.1 (by intro hc; exact ha (by simp [hc]))
    | cons e b =>
      simp only [List.cons_append, List.cons.injEq] at h
      have ha2 : '#' ∉ a := fun hm => ha (List.mem_cons_of_mem _ hm)
      have hb2 : '#' ∉ b := fun hm => hb (List.mem_cons_of_mem _ hm)
      obtain ⟨h1, h2⟩ := ih b ha2 hb2 h.2
      exact ⟨by rw [h.1, h1], h2⟩

theorem string_eq_of_data {a b : String} (h : a.data = b.data) : a = b := by
  cases a; cases b; simp_all

/-- C3, counterexample: distinct tuples with the same sort key. Two
timestamps in the same second give one key; a discriminator holding the
separator and a rendered time gives the key of a timestamped tuple; and the
separator may sit in the prefix or in the discriminator. -/
theorem buildSK_collisions :
    (("SEG", "morning", some sampleTime) ≠
        ("SEG", "morning", some { sampleTime with nsec := 5 }) ∧
      buildSK "SEG" "morning" (some sampleTime) =
        buildSK "SEG" "morning" (some { sampleTime with nsec := 5 })) ∧
    (("SEG", "morning#2024-01-01T00:00:00Z", (none : Option Time)) ≠
        ("SEG", "morning", some sampleTime) ∧
      buildSK "SEG" "morning#2024-01-01T00:00:00Z" none =
        buildSK "SEG" "morning" (some sampleTime)) ∧
    (("SEG", "a#b", (none : Option Time)) ≠ ("SEG#a", "b", none) ∧
      buildSK "SEG" "a#b" none = buildSK "SEG#a" "b" none) := by
  decide

/-- C3, amended: on prefixes and discriminators that hold no `#`, `buildSK` is
injective up to the rendering of the timestamp: equal keys come from equal
prefixes, equal discriminators, and timestamps that are both absent or both
present with the same RFC 3339 text. -/
theorem buildSK_injective_on_separator_free (p1 d1 p2 d2 : String) (t1 t2 : Option Time)
    (hp1 : '#' ∉ p1.data) (hd1 : '#' ∉ d1.data) (hp2 : '#' ∉ p2.data) (hd2 : '#' ∉ d2.data)
    (h : buildSK p1 d1 t1 = buildSK p2 d2 t2) :
    p1 = p2 ∧ d1 = d2 ∧ t1.map formatRFC3339 = t2.map formatRFC3339 := by
  have hdata := congrArg String.data h
  rw [buildSK_data, buildSK_data] at hdata
  obtain ⟨hp, hrest⟩ := split_at_separator _ _ _ _ hp1 hp2 hdata
  refine ⟨string_eq_of_data hp, ?_⟩
  cases t1 with
  | none =>
    cases t2 with
    | none =>
      simp only [List.append_nil] at hrest
      exact ⟨string_eq_of_data hrest, rfl⟩
    | some ts2 =>
      simp only [List.append_nil] at hrest
      exact absurd (hrest ▸ (by simp : '#' ∈ d2.data ++ '#' :: (formatRFC3339 ts2).data)) hd1
  | some ts1 =>
    cases t2 with
    | none =>
      simp only [List.append_nil] at hrest
      exact absurd (hrest ▸ (by simp : '#' ∈ d1.data ++ '#' :: (formatRFC3339 ts1).data)) hd2
    | some ts2 =>
      obtain ⟨hd, ht⟩ := split_at_separator _ _ _ _ hd1 hd2 hrest
      exact ⟨string_eq_of_data hd, by simp [string_eq_of_data ht]⟩

/-- C3, amended, at a concrete pair of equal keys. -/
theorem buildSK_injective_on_separator_free_witness :
    "SEG" = "SEG" ∧ "morning" = "morning" ∧
      (some sampleTime).map formatRFC3339 =
        (some { sampleTime with nsec := 5 }).map formatRFC3339 :=
  buildSK_injective_on_separator_free "SEG" "morning" "SEG" "morning" (some sampleTime)
    (some { sampleTime with nsec := 5 }) (by decide) (by decide) (by decide) (by decide)
    (by decide)

theorem buildSK_ne_of_kinds (k1 k2 d1 d2 : String) (t1 t2 : Option Time)
    (h1 : k1 ∈ itemKinds) (h2 : k2 ∈ itemKinds) (hne : k1 ≠ k2) :
    buildSK k1 d1 t1 ≠ buildSK k2 d2 t2 := by
  intro h
  have hdata := congrArg (fun s => s.data.head?) h
  simp only [buildSK_data] at hdata
  simp only [itemKinds, List.mem_cons, List.mem_singleton, List.not_mem_nil, or_false] at h1 h2
  rcases h1 with rfl | rfl | rfl <;> rcases h2 with rfl | rfl | rfl <;>
    first
    | exact hne rfl
    | (simp [userItemKeyPrefix, segmentItemKeyPrefix, blobItemKeyPrefix] at hdata)

theorem toDBBlob_SK (jsonUnmarshal : Bytes → Except GoError JSONValue) (expiry : Time)
    (profileID : String) (data : Bytes) :
    (toDBBlob jsonUnmarshal expiry profileID data).1.SK = "" ∨
      (toDBBlob jsonUnmarshal expiry profileID data).1.SK =
        buildSK blobItemKeyPrefix profileID none := by
  unfold toDBBlob
  cases jsonUnmarshal data <;> simp [blob.empty]

theorem buildSK_ne_empty (p d : String) (t : Option Time) : buildSK p d t ≠ "" := by
  intro h
  have hdata := congrArg String.data h
  rw [buildSK_data] at hdata
  simp at hdata

/-- C4: sort keys of different item kinds never collide. For two different
prefixes among `USER`, `SEG` and `BLOB`, `buildSK` gives different keys whatever
the discriminators and optional timestamps; and the sort keys of the items made
by `toDBUser`, `toDBSegment` and `toDBBlob` (parsed or not) are pairwise
different for all inputs. -/
theorem sort_keys_differ_across_kinds (k1 k2 d1 d2 : String) (t1 t2 : Option Time)
    (h1 : k1 ∈ itemKinds) (h2 : k2 ∈ itemKinds) (hne : k1 ≠ k2)
    (P : Profile) (S : Segment) (profileID segmentType blobID : String)
    (jsonUnmarshal : Bytes → Except GoError JSONValue) (expiry : Time) (data : Bytes) :
    buildSK k1 d1 t1 ≠ buildSK k2 d2 t2 ∧
    (toDBUser P).SK ≠ (toDBSegment S profileID segmentType).SK ∧
    (toDBUser P).SK ≠ (toDBBlob jsonUnmarshal expiry blobID data).1.SK ∧
    (toDBSegment S profileID segmentType).SK ≠
      (toDBBlob jsonUnmarshal expiry blobID data).1.SK := by
  have hU : userItemKeyPrefix ∈ itemKinds := by simp [itemKinds]
  have hS : segmentItemKeyPrefix ∈ itemKinds := by simp [itemKinds]
  have hB : blobItemKeyPrefix ∈ itemKinds := by simp [itemKinds]
  have hu : (toDBUser P).SK = buildSK userItemKeyPrefix P.ID.String none := rfl
  have hs : (toDBSegment S profileID segmentType).SK =
      buildSK segmentItemKeyPrefix segmentType (some S.CreatedAt) := rfl
  rw [hu, hs]
  refine ⟨buildSK_ne_of_kinds k1 k2 d1 d2 t1 t2 h1 h2 hne, ?_, ?_, ?_⟩
  · exact buildSK_ne_of_kinds _ _ _ _ _ _ hU hS (by decide)
  · rcases toDBBlob_SK jsonUnmarshal expiry blobID data with hb | hb
    · rw [hb]; exact buildSK_ne_empty _ _ _
    · rw [hb]; exact buildSK_ne_of_kinds _ _ _ _ _ _ hU hB (by decide)
  · rcases toDBBlob_SK jsonUnmarshal expiry blobID data with hb | hb
    · rw [hb]; exact buildSK_ne_empty _ _ _
    · rw [hb]; exact buildSK_ne_of_kinds _ _ _ _ _ _ hS hB (by decide)

/-- C4 at the sample profile, segment and blob. -/
theorem sort_keys_differ_across_kinds_witness :
    ("SEG" ∈ itemKinds ∧ "BLOB" ∈ itemKinds ∧ "SEG" ≠ "BLOB") ∧
    buildSK "SEG" "x" (some sampleTime) ≠ buildSK "BLOB" "x" none ∧
    (toDBUser sampleProfile).SK ≠ (toDBSegment sampleSegment "p" "morning").SK ∧
    (toDBUser sampleProfile).SK ≠ (toDBBlob sampleUnmarshal sampleExpiry "p" []).1.SK ∧
    (toDBSegment sampleSegment "p" "morning").SK ≠
      (toDBBlob sampleUnmarshal sampleExpiry "p" []).1.SK :=
  ⟨by decide,
   sort_keys_differ_across_kinds "SEG" "BLOB" "x" "x" (some sampleTime) none (by decide)
    (by decide) (by decide) sampleProfile sampleSegment "p" "morning" "p" sampleUnmarshal
    sampleExpiry []⟩

/-- C10: all items of one profile share a partition. For every profile `P`,
the user item and every segment item of `toDBItems P`, and the blob item
`toDBBlob` makes for `P`'s ID text from any data that parses, have the partition
key `"USER#"` followed by the ID text, which is `buildPK` of it. -/
theorem partition_key_shared (P : Profile)
    (jsonUnmarshal : Bytes → Except GoError JSONValue) (expiry : Time) (data : Bytes)
    (jsonData : JSONValue) (hparse : jsonUnmarshal data = .ok jsonData) :
    (toDBItems P).1.PK = "USER#" ++ P.ID.String ∧
    (∀ s ∈ (toDBItems P).2, s.PK = "USER#" ++ P.ID.String) ∧
    (toDBItems P).2.length = P.Segments.length ∧
    (toDBBlob jsonUnmarshal expiry P.ID.String data).1.PK = "USER#" ++ P.ID.String ∧
    (toDBBlob jsonUnmarshal expiry P.ID.String data).2 = none ∧
    buildPK P.ID.String = "USER#" ++ P.ID.String := by
  have hpk : buildPK P.ID.String = "USER#" ++ P.ID.String := by
    apply string_eq_of_data
    simp [buildPK, userItemKeyPrefix, keySeparator]
  refine ⟨hpk, ?_, by simp [toDBItems], ?_, ?_, hpk⟩
  · intro s hs
    simp only [toDBItems, loMap_const, List.mem_map] at hs
    obtain ⟨seg, _, rfl⟩ := hs
    exact hpk
  · simp [toDBBlob, hparse, hpk]
  · simp [toDBBlob, hparse]

/-- C10 at the sample profile. -/
theorem partition_key_shared_witness :
    (toDBItems sampleProfile).1.PK = "USER#" ++ sampleProfile.ID.String ∧
    (∀ s ∈ (toDBItems sampleProfile).2, s.PK = "USER#" ++ sampleProfile.ID.String) ∧
    (toDBItems sampleProfile).2.length = sampleProfile.Segments.length ∧
    (toDBBlob sampleUnmarshal sampleExpiry sampleProfile.ID.String []).1.PK =
      "USER#" ++ sampleProfile.ID.String ∧
    (toDBBlob sampleUnmarshal sampleExpiry sampleProfile.ID.String []).2 = none ∧
    buildPK sampleProfile.ID.String = "USER#" ++ sampleProfile.ID.String :=
  partition_key_shared sampleProfile sampleUnmarshal sampleExpiry [] .null rfl

/-! ## Single-item reads -/

/-- C8, the code at the failing input. `GetSegment` always issues a
begins-with condition on the key that ends in the rendered `createdAt`, never
on the timestamp-free prefix. With the zero time the handler passes when
`createdAt` is omitted, the condition is `SEG#morning#0001-01-01T00:00:00Z`,
which does not select the stored item `SEG#morning#2024-01-01T00:00:00Z`: on a
table holding that item the request without `createdAt` ends in status 500,
while the request carrying the creation time is answered with status 200. -/
theorem getSegment_omitted_createdAt_misses :
    (∀ profileID segmentType createdAt,
      getSegmentQuery profileID segmentType createdAt =
        { pk := buildPK profileID, op := .BeginsWith,
          sk := buildSK segmentItemKeyPrefix segmentType (some createdAt), project := [] }) ∧
    getSegmentQuery "p" "morning" Time.zero =
      { pk := "USER#p", op := .BeginsWith, sk := "SEG#morning#0001-01-01T00:00:00Z",
        project := [] } ∧
    (sampleStored.PK = "USER#p" ∧ sampleStored.SK = "SEG#morning#2024-01-01T00:00:00Z") ∧
    (getSegmentQuery "p" "morning" Time.zero).selects sampleStored.PK sampleStored.SK = false ∧
    (∀ (loc : Location) (timeParse : String → Except GoError Time),
      (handleGetSegment timeParse (GetSegment loc sampleOne) "p" "morning" "").status =
        StatusInternalServerError) ∧
    (∀ (loc : Location),
      (handleGetSegment (fun _ => .ok sampleTime) (GetSegment loc sampleOne) "p" "morning"
        "2024-01-01T00:00:00Z").status = StatusOK) := by
  refine ⟨fun _ _ _ => rfl, by decide, by decide, by decide, ?_, ?_⟩
  · intro loc timeParse
    have h : sampleOne (getSegmentQuery "p" "morning" Time.zero) =
        .error (.external "dynamo: no item found") := by
      have hsel : (getSegmentQuery "p" "morning" Time.zero).selects sampleStored.PK
          sampleStored.SK = false := by decide
      simp [sampleOne, hsel]
    simp [handleGetSegment, GetSegment, h, errorsIs]
  · intro loc
    have h : sampleOne (getSegmentQuery "p" "morning" sampleTime) = .ok sampleStored := by
      have hsel : (getSegmentQuery "p" "morning" sampleTime).selects sampleStored.PK
          sampleStored.SK = true := by decide
      simp [sampleOne, hsel]
    simp [handleGetSegment, GetSegment, h]

theorem buildSK_timestamp_free_ne (p d : String) (ts : Time) :
    buildSK p d none ≠ buildSK p d (some ts) := by
  intro h
  have hlen := congrArg (fun s => s.data.length) h
  simp [buildSK_data] at hlen

/-- C9, the code on every stored segment. For every segment `S` stored by
`toDBSegment S profileID S.Type`, the reads of `GetCategories` and
`GetTopCategories` for `(profileID, S.Type)` use an equality condition on the
timestamp-free key `SEG#<type>`; the partition key is that of the stored item,
but the sort key is never the stored `SEG#<type>#<createdAt>`, so the reads
select no stored segment item. -/
theorem categories_reads_miss_stored_segment (S : Segment) (profileID : String) :
    ((getCategoriesQuery profileID S.Typ).op = .Equal ∧
      (getCategoriesQuery profileID S.Typ).pk = (toDBSegment S profileID S.Typ).PK ∧
      (getCategoriesQuery profileID S.Typ).sk ≠ (toDBSegment S profileID S.Typ).SK ∧
      (getCategoriesQuery profileID S.Typ).selects (toDBSegment S profileID S.Typ).PK
        (toDBSegment S profileID S.Typ).SK = false) ∧
    ((getTopCategoriesQuery profileID S.Typ).op = .Equal ∧
      (getTopCategoriesQuery profileID S.Typ).pk = (toDBSegment S profileID S.Typ).PK ∧
      (getTopCategoriesQuery profileID S.Typ).sk ≠ (toDBSegment S profileID S.Typ).SK ∧
      (getTopCategoriesQuery profileID S.Typ).selects (toDBSegment S profileID S.Typ).PK
        (toDBSegment S profileID S.Typ).SK = false) := by
  have hne := buildSK_timestamp_free_ne segmentItemKeyPrefix S.Typ S.CreatedAt
  refine ⟨⟨rfl, rfl, hne, ?_⟩, ⟨rfl, rfl, hne, ?_⟩⟩
  · simp [Query.selects, getCategoriesQuery, toDBSegment, Ne.symm hne]
  · simp [Query.selects, getTopCategoriesQuery, toDBSegment, Ne.symm hne]

/-! ## The partition scan of `GetProfileByID` -/

theorem scanItems_orphans (items : List Item) (u0 : Option user) (ss0 : List segment)
    (h : ∀ it ∈ items, it.isOrphanSegment) :
    scanItems items u0 ss0 = .ok (u0, ss0 ++ segmentsOf items) := by
  induction items generalizing ss0 with
  | nil => simp [scanItems, segmentsOf]
  | cons it rest ih =>
    obtain ⟨v, hty, hu, hs, s, hseg⟩ := h it (List.mem_cons_self _ _)
    have hrest := ih (ss0 ++ [s]) (fun x hx => h x (List.mem_cons_of_mem _ hx))
    simp [scanItems, hty, hu, hs, hseg, hrest, segmentsOf, Item.segment?]

theorem segment?_of_storedUser (u : user) (hu : u.ItemType = userItemKeyPrefix) (it : Item)
    (h : storedUser u it) : it.segment? = none := by
  obtain ⟨hty, _⟩ := h
  have hp : HasPrefix userItemKeyPrefix userItemKeyPrefix = true := by decide
  unfold Item.segment?
  rw [hty, hu]
  cases it.asSegment <;> simp [hp]

theorem segment?_of_storedSegment (s : segment) (hs : s.ItemType = segmentItemKeyPrefix)
    (it : Item) (h : storedSegment s it) : it.segment? = some s := by
  obtain ⟨hty, hseg⟩ := h
  have hp : HasPrefix segmentItemKeyPrefix userItemKeyPrefix = false := by decide
  have hq : HasPrefix segmentItemKeyPrefix segmentItemKeyPrefix = true := by decide
  simp [Item.segment?, hty, hs, hseg, hp, hq]

theorem scanItems_stored (u : user) (hu : u.ItemType = userItemKeyPrefix) (items : List Item)
    (u0 : Option user) (ss0 : List segment)
    (h : ∀ it ∈ items, storedUser u it ∨
      ∃ s, s.ItemType = segmentItemKeyPrefix ∧ storedSegment s it) :
    ∃ u1, scanItems items u0 ss0 = .ok (u1, ss0 ++ segmentsOf items) ∧
      (u1 = some u ∨ (u1 = u0 ∧ ∀ it ∈ items, ¬ storedUser u it)) := by
  induction items generalizing u0 ss0 with
  | nil => exact ⟨u0, by simp [scanItems, segmentsOf], Or.inr ⟨rfl, by simp⟩⟩
  | cons it rest ih =>
    have hrest : ∀ x ∈ rest, storedUser u x ∨
        ∃ s, s.ItemType = segmentItemKeyPrefix ∧ storedSegment s x :=
      fun x hx => h x (List.mem_cons_of_mem _ hx)
    rcases h it (List.mem_cons_self _ _) with hit | ⟨s, hsty, hit⟩
    · obtain ⟨u1, hscan, hu1⟩ := ih (some u) ss0 hrest
      have hp : HasPrefix userItemKeyPrefix userItemKeyPrefix = true := by decide
      refine ⟨u1, ?_, Or.inl ?_⟩
      · have hnone := segment?_of_storedUser u hu it hit
        obtain ⟨hty, hdec⟩ := hit
        rw [hu] at hty
        simp only [segmentsOf, List.filterMap_cons, hnone]
        simpa [scanItems, hty, hdec, hp, segmentsOf] using hscan
      · rcases hu1 with h1 | ⟨h1, _⟩ <;> exact h1
    · obtain ⟨u1, hscan, hu1⟩ := ih u0 (ss0 ++ [s]) hrest
      have hp : HasPrefix segmentItemKeyPrefix userItemKeyPrefix = false := by decide
      have hq : HasPrefix segmentItemKeyPrefix segmentItemKeyPrefix = true := by decide
      refine ⟨u1, ?_, ?_⟩
      · have hsome := segment?_of_storedSegment s hsty it hit
        obtain ⟨hty, hdec⟩ := hit
        rw [hsty] at hty
        simp only [segmentsOf, List.filterMap_cons, hsome]
        simpa [scanItems, hty, hdec, hp, hq, segmentsOf] using hscan
      · rcases hu1 with h1 | ⟨h1, hno⟩
        · exact Or.inl h1
        · refine Or.inr ⟨h1, ?_⟩
          intro x hx
          rcases List.mem_cons.mp hx with rfl | hx
          · intro hux
            have h1 := hux.1
            rw [hit.1, hsty, hu] at h1
            exact absurd h1 (by decide)
          · exact hno x hx

theorem segmentsOf_stored (segs : List segment) (segItems : List Item)
    (hty : ∀ s ∈ segs, s.ItemType = segmentItemKeyPrefix)
    (h : List.Forall₂ storedSegment segs segItems) : segmentsOf segItems = segs := by
  induction h with
  | nil => rfl
  | @cons s it segs2 items2 hhead _ ih =>
    have hsome := segment?_of_storedSegment s (hty s (List.mem_cons_self _ _)) it hhead
    simp only [segmentsOf, List.filterMap_cons, hsome]
    have := ih (fun x hx => hty x (List.mem_cons_of_mem _ hx))
    simpa [segmentsOf] using this

theorem forall₂_exists_left {α β : Type} {R : α → β → Prop} {as : List α} {bs : List β}
    (h : List.Forall₂ R as bs) : ∀ b ∈ bs, ∃ a ∈ as, R a b := by
  induction h with
  | nil => intro b hb; cases hb
  | @cons a0 b0 as2 bs2 hhead _ ih =>
    intro b hb
    rcases List.mem_cons.mp hb with rfl | hb
    · exact ⟨a0, List.mem_cons_self _ _, hhead⟩
    · obtain ⟨a, ha, hr⟩ := ih b hb
      exact ⟨a, List.mem_cons_of_mem _ ha, hr⟩

theorem toDBItems_segment_types (P : Profile) :
    ∀ s ∈ (toDBItems P).2, s.ItemType = segmentItemKeyPrefix := by
  intro s hs
  simp only [toDBItems, loMap_const, List.mem_map] at hs
  obtain ⟨seg, _, rfl⟩ := hs
  rfl

/-- C2: reading back what an upsert wrote. Let the partition of `P` hold the
user item and the segment items of `toDBItems P`, each decoding to what was
written, and let the iterator yield them in any order `scan` and end without
error. Then `GetProfileByID` returns a profile and no error; its ID and Tags are
those of `P`; its segments are the round-tripped segments of `P` as a multiset,
listed in scan order, so there are as many as in `P` and their (Type,
Categories, TopCategories) triples are those of `P`'s segments. -/
theorem getProfileByID_reads_back_upsert (loc : Location) (P : Profile)
    (iter : String → List Item × Option GoError) (userItem : Item)
    (segItems scan : List Item)
    (hu : storedUser (toDBItems P).1 userItem)
    (hs : List.Forall₂ storedSegment (toDBItems P).2 segItems)
    (hperm : scan.Perm (userItem :: segItems))
    (hiter : iter (buildPK P.ID.String) = (scan, none)) :
    ∃ Q : Profile,
      GetProfileByID loc iter P.ID.String = .ret (some Q, none) ∧
      Q.ID = P.ID ∧ Q.Tags = P.Tags ∧
      Q.Segments = (segmentsOf scan).map (toCanonicalSegment loc) ∧
      Q.Segments.Perm
        (P.Segments.map fun s => toCanonicalSegment loc (toDBSegment s P.ID.String s.Typ)) ∧
      Q.Segments.length = P.Segments.length ∧
      (Q.Segments.map fun s => (s.Typ, s.Categories, s.TopCategories)).Perm
        (P.Segments.map fun s => (s.Typ, s.Categories, s.TopCategories)) := by
  have hutype : (toDBItems P).1.ItemType = userItemKeyPrefix := rfl
  have hstypes := toDBItems_segment_types P
  have hall : ∀ it ∈ scan, storedUser (toDBItems P).1 it ∨
      ∃ s, s.ItemType = segmentItemKeyPrefix ∧ storedSegment s it := by
    intro it hit
    rcases List.mem_cons.mp (hperm.subset hit) with rfl | hmem
    · exact Or.inl hu
    · obtain ⟨s, hsmem, hst⟩ := forall₂_exists_left hs it hmem
      exact Or.inr ⟨s, hstypes s hsmem, hst⟩
  obtain ⟨u1, hscan, hu1⟩ := scanItems_stored (toDBItems P).1 hutype scan none [] hall
  have hu1some : u1 = some (toDBItems P).1 := by
    rcases hu1 with h1 | ⟨_, hno⟩
    · exact h1
    · exact absurd hu (hno userItem (hperm.symm.subset (List.mem_cons_self _ _)))
  subst hu1some
  have hsegs : (segmentsOf scan).Perm (toDBItems P).2 := by
    have h1 : (segmentsOf scan).Perm (segmentsOf (userItem :: segItems)) :=
      hperm.filterMap _
    have h2 : segmentsOf (userItem :: segItems) = (toDBItems P).2 := by
      have hnone := segment?_of_storedUser _ hutype userItem hu
      have := segmentsOf_stored _ _ hstypes hs
      simpa [segmentsOf, hnone] using this
    rwa [h2] at h1
  have hround : ((toDBItems P).2.map (toCanonicalSegment loc)) =
      P.Segments.map fun s => toCanonicalSegment loc (toDBSegment s P.ID.String s.Typ) := by
    simp [toDBItems, List.map_map, Function.comp_def]
  have hperm2 : ((segmentsOf scan).map (toCanonicalSegment loc)).Perm
      (P.Segments.map fun s => toCanonicalSegment loc (toDBSegment s P.ID.String s.Typ)) := by
    rw [← hround]
    exact hsegs.map _
  refine ⟨{ ID := P.ID, Tags := P.Tags,
            Segments := (segmentsOf scan).map (toCanonicalSegment loc),
            CreatedAt := P.CreatedAt, UpdatedAt := P.UpdatedAt,
            ExpiresAt := timeUnix loc P.ExpiresAt.Unix 0 }, ?_, rfl, rfl, rfl, hperm2, ?_, ?_⟩
  · simp only [GetProfileByID, hiter, hscan, List.nil_append]
    simp [toCanonicalProfile, toDBItems, toDBUser, UUID.mustParse_string]
  · simpa using hperm2.length_eq
  · have h3 := hperm2.map fun s : Segment => (s.Typ, s.Categories, s.TopCategories)
    simpa [List.map_map, Function.comp_def, segment_back] using h3

/-- C2 at the sample profile, the segment item scanned before the user item. -/
theorem getProfileByID_reads_back_upsert_witness :
    ∃ Q : Profile,
      GetProfileByID (fun _ => 0) (fun _ => ([sampleSegmentItem, sampleUserItem], none))
        sampleProfile.ID.String = .ret (some Q, none) ∧
      Q.ID = sampleProfile.ID ∧ Q.Tags = sampleProfile.Tags ∧
      Q.Segments = (segmentsOf [sampleSegmentItem, sampleUserItem]).map
        (toCanonicalSegment fun _ => 0) ∧
      Q.Segments.Perm
        (sampleProfile.Segments.map fun s =>
          toCanonicalSegment (fun _ => 0) (toDBSegment s sampleProfile.ID.String s.Typ)) ∧
      Q.Segments.length = sampleProfile.Segments.length ∧
      (Q.Segments.map fun s => (s.Typ, s.Categories, s.TopCategories)).Perm
        (sampleProfile.Segments.map fun s => (s.Typ, s.Categories, s.TopCategories)) :=
  getProfileByID_reads_back_upsert (fun _ => 0) sampleProfile
    (fun _ => ([sampleSegmentItem, sampleUserItem], none)) sampleUserItem [sampleSegmentItem]
    [sampleSegmentItem, sampleUserItem] ⟨rfl, rfl⟩
    (List.Forall₂.cons ⟨rfl, rfl⟩ List.Forall₂.nil) (List.Perm.swap _ _ _) rfl

/-- C6: orphan segments are not a profile. When the scan of the partition
ends without error and every item it yields (possibly none) is a decodable
item whose type starts with `SEG` and not with `USER`, `GetProfileByID`
returns no profile and the sentinel `ErrNoProfileFound`, whose text is
"no profile found"; and the GET profile handler, for a non-empty id, answers
that result with status 404 and no body. -/
theorem getProfileByID_orphan_segments (loc : Location)
    (iter : String → List Item × Option GoError) (id : String)
    (hscan : ∀ it ∈ (iter (buildPK id)).1, it.isOrphanSegment)
    (hend : (iter (buildPK id)).2 = none) :
    GetProfileByID loc iter id = .ret (none, some .ErrNoProfileFound) ∧
    sentinelText .ErrNoProfileFound = some "no profile found" ∧
    (id ≠ "" →
      ∃ r, handleGetProfile (GetProfileByID loc iter) id = .ret r ∧
        r.status = StatusNotFound ∧ StatusNotFound = 404 ∧
        r.err = some .ErrNoProfileFound ∧ r.body = none) := by
  have hget : GetProfileByID loc iter id = .ret (none, some .ErrNoProfileFound) := by
    simp [GetProfileByID, scanItems_orphans _ none [] hscan, hend]
  refine ⟨hget, rfl, fun hid => ?_⟩
  exact ⟨{ status := StatusNotFound, err := some .ErrNoProfileFound, body := none },
    by simp [handleGetProfile, hid, hget, errorsIs], rfl, rfl, rfl, rfl⟩

/-- C6 on a partition that holds the sample segment item and no user item. -/
theorem getProfileByID_orphan_segments_witness :
    GetProfileByID (fun _ => 0) (fun _ => ([sampleSegmentItem], none)) "p" =
      .ret (none, some .ErrNoProfileFound) ∧
    sentinelText .ErrNoProfileFound = some "no profile found" ∧
    ("p" ≠ "" →
      ∃ r, handleGetProfile
          (GetProfileByID (fun _ => 0) (fun _ => ([sampleSegmentItem], none))) "p" = .ret r ∧
        r.status = StatusNotFound ∧ StatusNotFound = 404 ∧
        r.err = some .ErrNoProfileFound ∧ r.body = none) :=
  getProfileByID_orphan_segments (fun _ => 0) (fun _ => ([sampleSegmentItem], none)) "p"
    (by
      intro it hit
      rw [List.mem_singleton.mp hit]
      exact ⟨segmentItemKeyPrefix, rfl, by decide, by decide, _, rfl⟩)
    rfl

theorem scanItems_unknown_after_clean (pre post : List Item) (item : Item) (value : String)
    (u0 : Option user) (ss0 : List segment) (hunk : item.isUnknown value)
    (hpre : ∀ it ∈ pre, it.scansCleanly) :
    scanItems (pre ++ item :: post) u0 ss0 =
      .error (.errorf "get profile: unknown item type: %s" [value]) := by
  induction pre generalizing u0 ss0 with
  | nil =>
    obtain ⟨hty, hu, hs⟩ := hunk
    simp [scanItems, hty, hu, hs]
  | cons it rest ih =>
    have hrest : ∀ x ∈ rest, x.scansCleanly := fun x hx => hpre x (List.mem_cons_of_mem _ hx)
    obtain ⟨v, hty, hcase⟩ := hpre it (List.mem_cons_self _ _)
    rcases hcase with ⟨hu, u, hdec⟩ | ⟨hu, hs, sg, hdec⟩
    · simpa [scanItems, hty, hu, hdec] using ih (some u) ss0 hrest
    · simpa [scanItems, hty, hu, hs, hdec] using ih u0 (ss0 ++ [sg]) hrest

theorem scanItems_unknown_fails (pre post : List Item) (item : Item) (value : String)
    (u0 : Option user) (ss0 : List segment) (hunk : item.isUnknown value) :
    ∃ err, scanItems (pre ++ item :: post) u0 ss0 = .error err := by
  induction pre generalizing u0 ss0 with
  | nil =>
    exact ⟨_, scanItems_unknown_after_clean [] post item value u0 ss0 hunk (by simp)⟩
  | cons it rest ih =>
    simp only [List.cons_append, scanItems]
    cases it.typ with
    | notString => exact ⟨_, rfl⟩
    | nilString => exact ⟨_, rfl⟩
    | str v =>
      simp only
      by_cases hu : HasPrefix v userItemKeyPrefix = true
      · simp only [hu, if_true]
        cases it.asUser with
        | error e => exact ⟨_, rfl⟩
        | ok u => exact ih (some u) ss0
      · simp only [hu]
        by_cases hs : HasPrefix v segmentItemKeyPrefix = true
        · simp only [hs, if_true]
          cases it.asSegment with
          | error e => exact ⟨_, rfl⟩
          | ok sg => exact ih u0 (ss0 ++ [sg])
        · simp only [hs]
          exact ⟨_, rfl⟩

/-- C7: an unknown item fails the read. The scan dispatches on the item's type
text: prefix `USER` decodes a user, else prefix `SEG` decodes a segment, else
the item is unknown. Whenever the scanned sequence holds an item whose type
starts with neither `USER` nor `SEG`, `GetProfileByID` returns an error and no
profile, whatever else the sequence holds (a user item included); and when all
items before it are classified and decode, that error is the unknown-item-type
error carrying the type text. -/
theorem getProfileByID_unknown_item (loc : Location)
    (iter : String → List Item × Option GoError) (id : String) (pre post : List Item)
    (item : Item) (value : String) (e : Option GoError)
    (hiter : iter (buildPK id) = (pre ++ item :: post, e))
    (hunk : item.isUnknown value) :
    (∃ err, GetProfileByID loc iter id = .ret (none, some err)) ∧
    ((∀ it ∈ pre, it.scansCleanly) →
      GetProfileByID loc iter id =
        .ret (none, some (.errorf "get profile: unknown item type: %s" [value]))) ∧
    (∀ (rest : List Item) (u0 : Option user) (ss0 : List segment),
      scanItems (item :: rest) u0 ss0 =
        .error (.errorf "get profile: unknown item type: %s" [value])) ∧
    (∀ (it : Item) (v : String) (rest : List Item) (u0 : Option user) (ss0 : List segment),
      it.typ = .str v →
        (HasPrefix v userItemKeyPrefix = true →
          scanItems (it :: rest) u0 ss0 =
            match it.asUser with
            | .error err => .error (.wrapf "unmarshal user: %w" err)
            | .ok u => scanItems rest (some u) ss0) ∧
        (HasPrefix v userItemKeyPrefix = false → HasPrefix v segmentItemKeyPrefix = true →
          scanItems (it :: rest) u0 ss0 =
            match it.asSegment with
            | .error err => .error (.wrapf "unmarshal sub profile: %w" err)
            | .ok sg => scanItems rest u0 (ss0 ++ [sg]))) := by
  refine ⟨?_, ?_, ?_, ?_⟩
  · obtain ⟨err, herr⟩ := scanItems_unknown_fails pre post item value none [] hunk
    exact ⟨err, by simp [GetProfileByID, hiter, herr]⟩
  · intro hpre
    simp [GetProfileByID, hiter, scanItems_unknown_after_clean pre post item value none [] hunk hpre]
  · intro rest u0 ss0
    exact scanItems_unknown_after_clean [] rest item value u0 ss0 hunk (by simp)
  · intro it v rest u0 ss0 hty
    refine ⟨fun hu => ?_, fun hu hs => ?_⟩
    · simp only [scanItems, hty, hu, if_true]
    · simp [scanItems, hty, hu, hs]

/-- C7 on a partition that holds the sample user item, a blob item and the
sample segment item. -/
theorem getProfileByID_unknown_item_witness :
    GetProfileByID (fun _ => 0)
        (fun _ => ([sampleUserItem] ++ sampleBlobItem :: [sampleSegmentItem], none)) "p" =
      .ret (none, some (.errorf "get profile: unknown item type: %s" ["BLOB"])) :=
  (getProfileByID_unknown_item (fun _ => 0)
    (fun _ => ([sampleUserItem] ++ sampleBlobItem :: [sampleSegmentItem], none)) "p"
    [sampleUserItem] [sampleSegmentItem] sampleBlobItem "BLOB" none rfl
    ⟨rfl, by decide, by decide⟩).2.1
    (by
      intro it hit
      rw [List.mem_singleton.mp hit]
      exact ⟨userItemKeyPrefix, rfl, Or.inl ⟨by decide, _, rfl⟩⟩)

/-! ## Sort keys and type fields of the built items -/

/-- C11: the documented sort keys. The user item has sort key `USER#<id>` and
type `USER`; every segment item of `toDBItems P` has sort key `SEG#`, its
SegmentType, `#` and the RFC 3339 text of its own CreatedAt, and type `SEG`; a
blob item built from data that parses has sort key `BLOB#<id>` and type
`BLOB`. Only the segment key is built with a timestamp, and each key begins
with the item's type followed by `#`. -/
theorem built_items_sort_keys (P : Profile)
    (jsonUnmarshal : Bytes → Except GoError JSONValue) (expiry : Time) (blobID : String)
    (data : Bytes) (jsonData : JSONValue) (hparse : jsonUnmarshal data = .ok jsonData) :
    ((toDBUser P).SK = "USER#" ++ P.ID.String ∧ (toDBUser P).ItemType = "USER" ∧
      (toDBUser P).SK = buildSK (toDBUser P).ItemType P.ID.String none ∧
      HasPrefix (toDBUser P).SK ((toDBUser P).ItemType ++ "#") = true) ∧
    (∀ s ∈ (toDBItems P).2,
      s.SK = "SEG#" ++ s.SegmentType ++ "#" ++ formatRFC3339 s.CreatedAt ∧
      s.ItemType = "SEG" ∧
      s.SK = buildSK s.ItemType s.SegmentType (some s.CreatedAt) ∧
      HasPrefix s.SK (s.ItemType ++ "#") = true) ∧
    ((toDBBlob jsonUnmarshal expiry blobID data).1.SK = "BLOB#" ++ blobID ∧
      (toDBBlob jsonUnmarshal expiry blobID data).1.ItemType = "BLOB" ∧
      (toDBBlob jsonUnmarshal expiry blobID data).1.SK =
        buildSK (toDBBlob jsonUnmarshal expiry blobID data).1.ItemType blobID none ∧
      HasPrefix (toDBBlob jsonUnmarshal expiry blobID data).1.SK
        ((toDBBlob jsonUnmarshal expiry blobID data).1.ItemType ++ "#") = true) := by
  have hsk : ∀ (k d : String) (t : Option Time), HasPrefix (buildSK k d t) (k ++ "#") = true := by
    intro k d t
    cases t <;> simp [HasPrefix, buildSK, keySeparator]
  refine ⟨⟨rfl, rfl, rfl, hsk _ _ _⟩, ?_, ?_⟩
  · intro s hs
    simp only [toDBItems, loMap_const, List.mem_map] at hs
    obtain ⟨seg, _, rfl⟩ := hs
    exact ⟨rfl, rfl, rfl, hsk _ _ _⟩
  · have hb : (toDBBlob jsonUnmarshal expiry blobID data).1 =
        { PK := buildPK blobID, SK := buildSK blobItemKeyPrefix blobID none,
          ItemType := blobItemKeyPrefix, ID := blobID, TTL := expiry.Unix,
          Data := jsonData } := by
      simp [toDBBlob, hparse]
    rw [hb]
    exact ⟨rfl, rfl, rfl, hsk _ _ _⟩

/-- C11 at the sample profile and a blob for it. -/
theorem built_items_sort_keys_witness :
    (toDBUser sampleProfile).SK = "USER#1234abcd-ef00-0102-0304-0506070809ff" ∧
    (∀ s ∈ (toDBItems sampleProfile).2,
      s.SK = "SEG#" ++ s.SegmentType ++ "#" ++ formatRFC3339 s.CreatedAt) ∧
    (toDBBlob sampleUnmarshal sampleExpiry "p" []).1.SK = "BLOB#p" :=
  have h := built_items_sort_keys sampleProfile sampleUnmarshal sampleExpiry "p" [] .null rfl
  ⟨h.1.1.trans (by decide), fun s hs => (h.2.1 s hs).1, h.2.2.1.trans (by decide)⟩

/-! ## Tags and blobs -/

/-- C19: `GetUserTags` returns no tag list and the error "invalid tags"
exactly when the projected map has no `tags` entry or the entry is not a
string sequence, whatever the store call itself returned (its error is then
dropped); and when the entry is a string sequence it returns that sequence
with the error of the store call. -/
theorem getUserTags_invalid_iff (one : Query → List (String × AnyValue) × Option GoError)
    (profileID : String) :
    (GetUserTags one profileID = (none, some (.errorf "invalid tags" [])) ↔
      ((one (getUserTagsQuery profileID)).1.lookup "tags" = none ∨
       (one (getUserTagsQuery profileID)).1.lookup "tags" = some .other)) ∧
    (∀ tagList, (one (getUserTagsQuery profileID)).1.lookup "tags" = some (.strings tagList) →
      GetUserTags one profileID = (some tagList, (one (getUserTagsQuery profileID)).2)) ∧
    ((GetUserTags one profileID).1 = none → (GetUserTags one profileID).2 =
      some (.errorf "invalid tags" [])) := by
  unfold GetUserTags
  cases h : (one (getUserTagsQuery profileID)).1.lookup "tags" with
  | none => simp [h]
  | some v =>
    cases v with
    | strings l => simp [h]
    | other => simp [h]

/-- C17, the code at the failing input. For a blob whose projected raw data
has no `segments` field (the store call succeeding), `GetRawSegmentsFromBlob`
returns no bytes and the sentinel `ErrNoSegmentsFound`, "no segments found";
the handler answers every error of the repository, this sentinel included,
with status 500, not 404. -/
theorem blob_segments_missing_is_500 (jsonMarshal : JSONValue → Except GoError Bytes)
    (one : Query → List (String × JSONValue) × Option GoError) (profileID : String)
    (rawData : List (String × JSONValue))
    (hone : one (getRawSegmentsQuery profileID) = (rawData, none))
    (hmissing : rawData.lookup "segments" = none) (hid : profileID ≠ "") :
    GetRawSegmentsFromBlob jsonMarshal one profileID = (none, some .ErrNoSegmentsFound) ∧
    sentinelText .ErrNoSegmentsFound = some "no segments found" ∧
    (handleGetSegmentsFromBlob (GetRawSegmentsFromBlob jsonMarshal one) profileID).status =
      StatusInternalServerError ∧
    StatusInternalServerError = 500 ∧ StatusInternalServerError ≠ StatusNotFound ∧
    (∀ (getRaw : String → Option Bytes × Option GoError) (id : String) (err : GoError),
      id ≠ "" → (getRaw id).2 = some err →
        (handleGetSegmentsFromBlob getRaw id).status = StatusInternalServerError) := by
  have hget : GetRawSegmentsFromBlob jsonMarshal one profileID =
      (none, some .ErrNoSegmentsFound) := by
    simp [GetRawSegmentsFromBlob, hone, hmissing]
  refine ⟨hget, rfl, ?_, rfl, by decide, ?_⟩
  · simp [handleGetSegmentsFromBlob, hget, hid]
  · intro getRaw id err hid2 herr
    unfold handleGetSegmentsFromBlob
    rw [if_neg hid2]
    rcases hr : getRaw id with ⟨b, e⟩
    rw [hr] at herr
    simp only at herr
    subst herr
    rfl

/-- C17 on a blob stored from the body `{"id": "p"}`. -/
theorem blob_segments_missing_is_500_witness :
    (handleGetSegmentsFromBlob
        (GetRawSegmentsFromBlob (fun _ => .ok [])
          (fun _ => ([("id", JSONValue.string "p")], none))) "p").status = 500 :=
  (blob_segments_missing_is_500 (fun _ => .ok [])
    (fun _ => ([("id", JSONValue.string "p")], none)) "p" [("id", JSONValue.string "p")] rfl
    (by simp [List.lookup]) (by decide)).2.2.1

/-- C18, the code at the failing input. A body the handler's decoder rejects
is answered with status 400 and nothing is put to the store. A body the decoder
accepts and `json.Unmarshal` rejects (a JSON value followed by other text, the
decoder reading only the first value) reaches `UpsertBlob`: `toDBBlob` returns
the parse error and the empty blob, nothing is put to the store, and the handler
answers with status 500. -/
theorem upsertBlob_unparseable_body (expiry : Time) (putRun : blob → Option GoError)
    (profile : Profile) (parseErr : GoError) :
    (toDBBlob (fun _ => .error parseErr) expiry profile.ID.String sampleTrailingBody).2 =
      some parseErr ∧
    (toDBBlob (fun _ => .error parseErr) expiry profile.ID.String sampleTrailingBody).1.SK =
      blob.empty.SK ∧
    UpsertBlob (fun _ => .error parseErr) expiry putRun profile.ID.String sampleTrailingBody =
      ([], some (.wrapf "failed to parse blob data: %w" parseErr)) ∧
    (handleUpsertBlob (.ok sampleTrailingBody) (fun _ => .ok profile)
        (UpsertBlob (fun _ => .error parseErr) expiry putRun)).1.status =
      StatusInternalServerError ∧
    (handleUpsertBlob (.ok sampleTrailingBody) (fun _ => .ok profile)
        (UpsertBlob (fun _ => .error parseErr) expiry putRun)).2 = [] ∧
    (handleUpsertBlob (.ok sampleTrailingBody) (fun _ => .error parseErr)
        (UpsertBlob (fun _ => .error parseErr) expiry putRun)).1.status = StatusBadRequest ∧
    (handleUpsertBlob (.ok sampleTrailingBody) (fun _ => .error parseErr)
        (UpsertBlob (fun _ => .error parseErr) expiry putRun)).2 = [] ∧
    StatusInternalServerError = 500 ∧ StatusBadRequest = 400 := by
  simp [toDBBlob, UpsertBlob, handleUpsertBlob, StatusInternalServerError, StatusBadRequest]

/-! ## Malformed identifiers and blobs in the scanned partition -/

theorem toCanonicalProfile_panic_iff (loc : Location) (u : user) (ss : List segment) :
    (∃ msg, toCanonicalProfile loc u ss = .panic msg) ↔ UUID.Parse u.ID = none := by
  unfold toCanonicalProfile UUID.MustParse
  cases UUID.Parse u.ID <;> simp

/-- C16, counterexample: a partition whose user item carries the ID text
`not-a-uuid`. `GetProfileByID` panics; it returns neither a profile nor an
error. -/
theorem getProfileByID_malformed_id_panics :
    (∃ msg, GetProfileByID (fun _ => 0) (fun _ => ([sampleBadUserItem], none)) "p" =
      .panic msg) ∧
    ¬ ∃ r, GetProfileByID (fun _ => 0) (fun _ => ([sampleBadUserItem], none)) "p" = .ret r := by
  have h : GetProfileByID (fun _ => 0) (fun _ => ([sampleBadUserItem], none)) "p" =
      .panic "uuid: Parse(not-a-uuid): invalid UUID" := by decide
  rw [h]
  exact ⟨⟨_, rfl⟩, by simp⟩

/-- C16, amended: `toCanonicalProfile` panics exactly when the user item's ID
text is not one `uuid.Parse` accepts, and then `GetProfileByID`, having scanned
that user item, panics too instead of returning an error; for an ID text that
parses, with any segment items, the conversion returns a profile whose ID is
the parsed identifier and `GetProfileByID` returns that profile. -/
theorem toCanonicalProfile_fails_by_panic (loc : Location) (u : user) (ss : List segment)
    (iter : String → List Item × Option GoError) (id : String) (items : List Item)
    (hiter : iter (buildPK id) = (items, none))
    (hscan : scanItems items none [] = .ok (some u, ss)) :
    ((∃ msg, toCanonicalProfile loc u ss = .panic msg) ↔ UUID.Parse u.ID = none) ∧
    (UUID.Parse u.ID = none → ∃ msg, GetProfileByID loc iter id = .panic msg) ∧
    (∀ parsed, UUID.Parse u.ID = some parsed →
      ∃ Q : Profile, toCanonicalProfile loc u ss = .ret Q ∧ Q.ID = parsed ∧
        GetProfileByID loc iter id = .ret (some Q, none)) := by
  refine ⟨toCanonicalProfile_panic_iff loc u ss, ?_, ?_⟩
  · intro hnone
    obtain ⟨msg, hmsg⟩ := (toCanonicalProfile_panic_iff loc u ss).mpr hnone
    exact ⟨msg, by simp [GetProfileByID, hiter, hscan, hmsg]⟩
  · intro parsed hparsed
    have hconv : toCanonicalProfile loc u ss =
        .ret { ID := parsed, Tags := u.Tags,
               Segments := loMap ss fun s _ => toCanonicalSegment loc s,
               CreatedAt := u.CreatedAt, UpdatedAt := u.UpdatedAt,
               ExpiresAt := timeUnix loc u.TTL 0 } := by
      simp [toCanonicalProfile, UUID.MustParse, hparsed]
    exact ⟨_, hconv, rfl, by simp [GetProfileByID, hiter, hscan, hconv]⟩

/-- C16, amended, on the partition whose user item has the ID text
`not-a-uuid`. -/
theorem toCanonicalProfile_fails_by_panic_witness :
    UUID.Parse sampleBadUser.ID = none ∧
    ∃ msg, GetProfileByID (fun _ => 0) (fun _ => ([sampleBadUserItem], none)) "p" =
      .panic msg :=
  ⟨by decide,
   (toCanonicalProfile_fails_by_panic (fun _ => 0) sampleBadUser []
      (fun _ => ([sampleBadUserItem], none)) "p" [sampleBadUserItem] rfl rfl).2.1
      (by decide)⟩

theorem scanItems_clean_or_unknown (value : String) (items : List Item) (u0 : Option user)
    (ss0 : List segment) (hall : ∀ it ∈ items, it.scansCleanly ∨ it.isUnknown value)
    (hex : ∃ it ∈ items, it.isUnknown value) :
    scanItems items u0 ss0 =
      .error (.errorf "get profile: unknown item type: %s" [value]) := by
  induction items generalizing u0 ss0 with
  | nil =>
    obtain ⟨it, hit, _⟩ := hex
    cases hit
  | cons it rest ih =>
    have hrest : ∀ x ∈ rest, x.scansCleanly ∨ x.isUnknown value :=
      fun x hx => hall x (List.mem_cons_of_mem _ hx)
    rcases hall it (List.mem_cons_self _ _) with hclean | hunk
    · have hex2 : ∃ x ∈ rest, x.isUnknown value := by
        obtain ⟨x, hx, hxu⟩ := hex
        rcases List.mem_cons.mp hx with rfl | hx
        · exfalso
          obtain ⟨v, hty, hcase⟩ := hclean
          obtain ⟨hty2, hu2, hs2⟩ := hxu
          rw [hty] at hty2
          cases hty2
          rcases hcase with ⟨hu, _⟩ | ⟨_, hs, _⟩
          · rw [hu] at hu2; cases hu2
          · rw [hs] at hs2; cases hs2
        · exact ⟨x, hx, hxu⟩
      obtain ⟨v, hty, hcase⟩ := hclean
      rcases hcase with ⟨hu, u, hdec⟩ | ⟨hu, hs, sg, hdec⟩
      · simpa [scanItems, hty, hu, hdec] using ih (some u) ss0 hrest hex2
      · simpa [scanItems, hty, hu, hs, hdec] using ih u0 (ss0 ++ [sg]) hrest hex2
    · exact scanItems_unknown_after_clean [] rest it value u0 ss0 hunk (by simp)

/-- C20: a blob in the partition makes the profile unreadable. Let the
partition of `P` hold the user item and the segment items of `toDBItems P`,
each decoding to what was written, together with a blob item built by
`toDBBlob` for `P`'s ID text from data that parses; the blob has the same
partition key and the type `BLOB`. In whatever order the scan yields these
items, `GetProfileByID` returns no profile and the unknown-item-type error for
`BLOB`. -/
theorem getProfileByID_with_blob (loc : Location) (P : Profile)
    (iter : String → List Item × Option GoError)
    (jsonUnmarshal : Bytes → Except GoError JSONValue) (expiry : Time) (data : Bytes)
    (jsonData : JSONValue) (userItem blobItem : Item) (segItems scan : List Item)
    (e : Option GoError)
    (hparse : jsonUnmarshal data = .ok jsonData)
    (hu : storedUser (toDBItems P).1 userItem)
    (hs : List.Forall₂ storedSegment (toDBItems P).2 segItems)
    (hb : blobItem.typ = .str (toDBBlob jsonUnmarshal expiry P.ID.String data).1.ItemType)
    (hperm : scan.Perm (blobItem :: userItem :: segItems))
    (hiter : iter (buildPK P.ID.String) = (scan, e)) :
    GetProfileByID loc iter P.ID.String =
      .ret (none, some (.errorf "get profile: unknown item type: %s" ["BLOB"])) ∧
    (toDBBlob jsonUnmarshal expiry P.ID.String data).1.PK = (toDBItems P).1.PK ∧
    (toDBBlob jsonUnmarshal expiry P.ID.String data).1.PK = buildPK P.ID.String ∧
    (toDBBlob jsonUnmarshal expiry P.ID.String data).1.ItemType = "BLOB" := by
  have hblob : (toDBBlob jsonUnmarshal expiry P.ID.String data).1 =
      { PK := buildPK P.ID.String, SK := buildSK blobItemKeyPrefix P.ID.String none,
        ItemType := blobItemKeyPrefix, ID := P.ID.String, TTL := expiry.Unix,
        Data := jsonData } := by
    simp [toDBBlob, hparse]
  rw [hblob] at hb ⊢
  have hunk : blobItem.isUnknown "BLOB" := ⟨hb, by decide, by decide⟩
  have hall : ∀ it ∈ scan, it.scansCleanly ∨ it.isUnknown "BLOB" := by
    intro it hit
    rcases List.mem_cons.mp (hperm.subset hit) with rfl | hmem
    · exact Or.inr hunk
    · rcases List.mem_cons.mp hmem with rfl | hmem
      · exact Or.inl ⟨userItemKeyPrefix, hu.1, Or.inl ⟨by decide, _, hu.2⟩⟩
      · obtain ⟨sg, hsg, hst⟩ := forall₂_exists_left hs it hmem
        have hty := toDBItems_segment_types P sg hsg
        refine Or.inl ⟨segmentItemKeyPrefix, ?_, Or.inr ⟨by decide, by decide, sg, hst.2⟩⟩
        rw [hst.1, hty]
  have hex : ∃ it ∈ scan, it.isUnknown "BLOB" :=
    ⟨blobItem, hperm.symm.subset (List.mem_cons_self _ _), hunk⟩
  refine ⟨?_, rfl, rfl, rfl⟩
  simp [GetProfileByID, hiter, scanItems_clean_or_unknown "BLOB" scan none [] hall hex]

/-- C20 on the sample profile, the blob item scanned last. -/
theorem getProfileByID_with_blob_witness :
    GetProfileByID (fun _ => 0)
        (fun _ => ([sampleUserItem, sampleSegmentItem, sampleBlobItem], none))
        sampleProfile.ID.String =
      .ret (none, some (.errorf "get profile: unknown item type: %s" ["BLOB"])) :=
  (getProfileByID_with_blob (fun _ => 0) sampleProfile
    (fun _ => ([sampleUserItem, sampleSegmentItem, sampleBlobItem], none)) sampleUnmarshal
    sampleExpiry [] .null sampleUserItem sampleBlobItem [sampleSegmentItem]
    [sampleUserItem, sampleSegmentItem, sampleBlobItem] none rfl ⟨rfl, rfl⟩
    (List.Forall₂.cons ⟨rfl, rfl⟩ List.Forall₂.nil) rfl
    (by
      have h : [sampleUserItem, sampleSegmentItem, sampleBlobItem] =
          [sampleUserItem, sampleSegmentItem] ++ [sampleBlobItem] := rfl
      rw [h]
      exact List.perm_append_comm)
    rfl).1

/-! ## The top-categories derivation -/

theorem Float64.gt_asymm (a b : Float64) (h : a.gt b = true) : b.gt a = false := by
  cases a <;> cases b <;> simp_all [Float64.gt, Float64.num] <;> exact le_of_lt h

theorem extractTopCategories_ids
    (sortSlice : (Category → Category → Bool) → List Category → List Category)
    (categories : List Category) :
    (extractTopCategories sortSlice categories).2 =
      ((sortSlice scoreLess categories).take 3).map fun c => c.ID := by
  unfold extractTopCategories
  by_cases h : (sortSlice scoreLess categories).length < 3
  · simp only [h, if_true, loMap_const]
    rw [List.take_of_length_le (by omega)]
  · simp only [h, if_false]

theorem sorted_strictly (sorted categories : List Category) (hperm : sorted.Perm categories)
    (hsorted : sorted.Pairwise fun a b => scoreLess b a = false)
    (hdistinct : categories.Pairwise fun a b =>
      a.Score.gt b.Score = true ∨ b.Score.gt a.Score = true) :
    sorted.Pairwise fun a b => a.Score.gt b.Score = true := by
  have h1 : sorted.Pairwise fun a b =>
      a.Score.gt b.Score = true ∨ b.Score.gt a.Score = true :=
    (hperm.pairwise_iff (fun h => h.symm)).mpr hdistinct
  refine (hsorted.and h1).imp ?_
  intro a b hab
  rcases hab.2 with h | h
  · exact h
  · have := hab.1
    simp only [scoreLess] at this
    rw [h] at this
    cases this

theorem descending_unique (l1 l2 : List Category) (hperm : l1.Perm l2)
    (h1 : l1.Pairwise fun a b => a.Score.gt b.Score = true)
    (h2 : l2.Pairwise fun a b => a.Score.gt b.Score = true) : l1 = l2 := by
  haveI : IsAntisymm Category (fun a b => a.Score.gt b.Score = true) :=
    ⟨fun a b hab hba => by
      have := Float64.gt_asymm _ _ hab
      rw [hba] at this
      cases this⟩
  exact List.eq_of_perm_of_sorted hperm h1 h2

theorem extractTopCategories_of_descending
    (sortSlice : (Category → Category → Bool) → List Category → List Category)
    (categories desc : List Category)
    (hperm : (sortSlice scoreLess categories).Perm categories)
    (hsorted : (sortSlice scoreLess categories).Pairwise fun a b => scoreLess b a = false)
    (hdistinct : categories.Pairwise fun a b =>
      a.Score.gt b.Score = true ∨ b.Score.gt a.Score = true)
    (hdperm : desc.Perm categories)
    (hdesc : desc.Pairwise fun a b => a.Score.gt b.Score = true) :
    (extractTopCategories sortSlice categories).2 = (desc.take 3).map fun c => c.ID := by
  have hstrict := sorted_strictly _ _ hperm hsorted hdistinct
  have heq := descending_unique _ _ (hperm.trans hdperm.symm) hstrict hdesc
  rw [extractTopCategories_ids, heq]

theorem sampleCategories_perm : sampleCategoriesDescending.Perm sampleCategories := by
  unfold sampleCategoriesDescending sampleCategories
  refine List.Perm.symm ?_
  refine (@List.perm_middle _ _ [_, _] [_]).trans ?_
  exact List.Perm.cons _ (List.Perm.cons _ (List.Perm.swap _ _ _))

theorem sampleCategories_descending :
    sampleCategoriesDescending.Pairwise fun a b => a.Score.gt b.Score = true := by
  simp only [sampleCategoriesDescending, List.pairwise_cons, List.mem_cons, List.mem_singleton,
    List.not_mem_nil, forall_eq_or_imp, forall_eq, Float64.gt, Float64.num]
  norm_num

theorem sampleCategories_distinct :
    sampleCategories.Pairwise fun a b =>
      a.Score.gt b.Score = true ∨ b.Score.gt a.Score = true := by
  simp only [sampleCategories, List.pairwise_cons, List.mem_cons, List.mem_singleton,
    List.not_mem_nil, forall_eq_or_imp, forall_eq, Float64.gt, Float64.num]
  norm_num

theorem sampleSortSlice_sampleCategories :
    sampleSortSlice scoreLess sampleCategories = sampleCategoriesDescending := by
  have cmp : ∀ (i j : String) (p q : ℚ),
      scoreLess { ID := i, Score := .finite p } { ID := j, Score := .finite q } = decide (q < p) :=
    fun _ _ _ _ => rfl
  have h1 : ((39 : ℚ) / 50 < 23 / 25) := by norm_num
  have h2 : ¬ ((39 : ℚ) / 50 < 13 / 20) := by norm_num
  have h3 : ¬ ((23 : ℚ) / 25 < 13 / 20) := by norm_num
  have h4 : ¬ ((23 : ℚ) / 25 < 17 / 20) := by norm_num
  have h5 : ((39 : ℚ) / 50 < 17 / 20) := by norm_num
  have h6 : ((13 : ℚ) / 20 < 23 / 25) := by norm_num
  simp [sampleSortSlice, sampleCategories, sampleCategoriesDescending, insertSorted, cmp,
    h1, h2, h3, h4, h5, h6]

/-- C12: the top categories of distinct scores. Let `sort.Slice` return a
rearrangement of the categories in which no later element is greater in score
than an earlier one, and let any two of the `n` scores be ordered by `>` one
way or the other (pairwise distinct, none NaN). Then `extractTopCategories`
returns `min 3 n` IDs: the IDs of the first three of the categories arranged by
strictly descending score, each of them scoring above every category left out,
and all `n` IDs in that order when `n < 3`. The result does not depend on the
sort. On scores 0.85, 0.65, 0.92, 0.78 for news, sports, ent, tech it is
ent, news, tech. -/
theorem extractTopCategories_distinct_scores
    (sortSlice : (Category → Category → Bool) → List Category → List Category)
    (categories : List Category)
    (hperm : (sortSlice scoreLess categories).Perm categories)
    (hsorted : (sortSlice scoreLess categories).Pairwise fun a b => scoreLess b a = false)
    (hdistinct : categories.Pairwise fun a b =>
      a.Score.gt b.Score = true ∨ b.Score.gt a.Score = true) :
    (extractTopCategories sortSlice categories).2.length = min 3 categories.length ∧
    (∃ desc : List Category, desc.Perm categories ∧
      (desc.Pairwise fun a b => a.Score.gt b.Score = true) ∧
      (extractTopCategories sortSlice categories).2 = (desc.take 3).map (fun c => c.ID) ∧
      (categories.length < 3 →
        (extractTopCategories sortSlice categories).2 = desc.map fun c => c.ID) ∧
      (∀ a ∈ desc.take 3, ∀ b ∈ desc.drop 3, a.Score.gt b.Score = true)) ∧
    (∀ desc : List Category, desc.Perm categories →
      (desc.Pairwise fun a b => a.Score.gt b.Score = true) →
      (extractTopCategories sortSlice categories).2 = (desc.take 3).map fun c => c.ID) ∧
    (∀ sortSlice2 : (Category → Category → Bool) → List Category → List Category,
      (sortSlice2 scoreLess sampleCategories).Perm sampleCategories →
      ((sortSlice2 scoreLess sampleCategories).Pairwise fun a b => scoreLess b a = false) →
      (extractTopCategories sortSlice2 sampleCategories).2 = ["ent", "news", "tech"]) := by
  have hstrict := sorted_strictly _ _ hperm hsorted hdistinct
  have hids := extractTopCategories_ids sortSlice categories
  refine ⟨?_, ⟨sortSlice scoreLess categories, hperm, hstrict, hids, ?_, ?_⟩, ?_, ?_⟩
  · rw [hids, List.length_map, List.length_take, hperm.length_eq]
  · intro hlen
    rw [hids, List.take_of_length_le (by rw [hperm.length_eq]; omega)]
  · intro a ha b hb
    have hsplit : (sortSlice scoreLess categories).take 3 ++
        (sortSlice scoreLess categories).drop 3 = sortSlice scoreLess categories :=
      List.take_append_drop _ _
    rw [← hsplit] at hstrict
    exact (List.pairwise_append.mp hstrict).2.2 a ha b hb
  · intro desc hdperm hdesc
    exact extractTopCategories_of_descending sortSlice categories desc hperm hsorted hdistinct
      hdperm hdesc
  · intro sortSlice2 hperm2 hsorted2
    rw [extractTopCategories_of_descending sortSlice2 sampleCategories
      sampleCategoriesDescending hperm2 hsorted2 sampleCategories_distinct sampleCategories_perm
      sampleCategories_descending]
    rfl

/-- C12 with an insertion sort on the example. -/
theorem extractTopCategories_distinct_scores_witness :
    (extractTopCategories sampleSortSlice sampleCategories).2 = ["ent", "news", "tech"] ∧
    (extractTopCategories sampleSortSlice sampleCategories).2.length =
      min 3 sampleCategories.length :=
  have hs := sampleSortSlice_sampleCategories
  have h := extractTopCategories_distinct_scores sampleSortSlice sampleCategories
    (by rw [hs]; exact sampleCategories_perm)
    (by
      rw [hs]
      exact sampleCategories_descending.imp fun h => Float64.gt_asymm _ _ h)
    sampleCategories_distinct
  ⟨(h.2.2.1 sampleCategoriesDescending sampleCategories_perm sampleCategories_descending).trans
    rfl, h.1⟩

/-! ## Validation of an inbound profile -/

theorem uuidNew_ne_nil (random : UUID) : uuidNew random ≠ UUID.Nil := by
  obtain ⟨l, hl⟩ := random
  obtain ⟨b0, b1, b2, b3, b4, b5, b6, b7, b8, b9, b10, b11, b12, b13, b14, b15, rfl⟩ :=
    list_length_sixteen l hl
  intro h
  have hb := congrArg (fun u : UUID => (u.bytes.getD 6 0).val) h
  simp [uuidNew, UUID.Nil, List.replicate, Fin.ofNat] at hb
  omega

theorem validateSegment_filledFrom (loc : Location) (clock : Clock) (n : Nat) (s : Segment) :
    Segment.filledFrom loc clock (validateSegment loc clock n s).1 s := by
  unfold Segment.filledFrom validateSegment
  refine ⟨rfl, rfl, rfl, ?_, ?_, ?_⟩
  · by_cases h : s.CreatedAt.IsZero = true
    · simp only [h, if_true]; exact ⟨_, rfl⟩
    · simp only [h]; rfl
  · by_cases h : s.UpdatedAt.IsZero = true
    · simp only [h, if_true]; exact ⟨_, rfl⟩
    · simp only [h]; rfl
  · by_cases h : s.ExpiresAt.IsZero = true
    · simp only [h, if_true]; exact ⟨_, rfl⟩
    · simp only [h]; rfl

theorem validateSegments_filledFrom (loc : Location) (clock : Clock) (n : Nat)
    (segs : List Segment) :
    List.Forall₂ (Segment.filledFrom loc clock) (validateSegments loc clock n segs).1 segs := by
  induction segs generalizing n with
  | nil => exact List.Forall₂.nil
  | cons s rest ih =>
    exact List.Forall₂.cons (validateSegment_filledFrom loc clock n s) (ih _)

theorem validateSegment_const (loc : Location) (now : Time) (n : Nat) (s : Segment) :
    (validateSegment loc (fun _ => now) n s).1 = s.filledAt loc now := by
  unfold validateSegment Segment.filledAt
  by_cases h1 : s.CreatedAt.IsZero = true <;> by_cases h2 : s.UpdatedAt.IsZero = true <;>
    by_cases h3 : s.ExpiresAt.IsZero = true <;> simp [h1, h2, h3]

theorem validateSegments_const (loc : Location) (now : Time) (n : Nat) (segs : List Segment) :
    (validateSegments loc (fun _ => now) n segs).1 = segs.map (Segment.filledAt loc now) := by
  induction segs generalizing n with
  | nil => rfl
  | cons s rest ih => simp [validateSegments, validateSegment_const, ih]

theorem validateSegment_of_set (loc : Location) (clock : Clock) (n : Nat) (s : Segment)
    (h : s.timesSet = true) : validateSegment loc clock n s = (s, n) := by
  simp only [Segment.timesSet, Bool.and_eq_true, Bool.not_eq_true'] at h
  obtain ⟨⟨h1, h2⟩, h3⟩ := h
  simp [validateSegment, h1, h2, h3]

theorem validateSegments_of_set (loc : Location) (clock : Clock) (n : Nat)
    (segs : List Segment) (h : segs.all Segment.timesSet = true) :
    validateSegments loc clock n segs = (segs, n) := by
  induction segs generalizing n with
  | nil => rfl
  | cons s rest ih =>
    simp only [List.all_cons, Bool.and_eq_true] at h
    simp [validateSegments, validateSegment_of_set loc clock n s h.1, ih n h.2]

theorem validateSegment_timesSet (loc : Location) (clock : Clock) (n : Nat) (s : Segment)
    (hclock : ∀ k, (clock k).IsZero = false ∧ ((clock k).AddDate loc 0 6 0).IsZero = false) :
    (validateSegment loc clock n s).1.timesSet = true := by
  unfold validateSegment Segment.timesSet
  by_cases h1 : s.CreatedAt.IsZero = true <;> by_cases h2 : s.UpdatedAt.IsZero = true <;>
    by_cases h3 : s.ExpiresAt.IsZero = true <;>
    simp [h1, h2, h3, (hclock _).1, (hclock _).2]

theorem validateSegments_timesSet (loc : Location) (clock : Clock) (n : Nat)
    (segs : List Segment)
    (hclock : ∀ k, (clock k).IsZero = false ∧ ((clock k).AddDate loc 0 6 0).IsZero = false) :
    (validateSegments loc clock n segs).1.all Segment.timesSet = true := by
  induction segs generalizing n with
  | nil => rfl
  | cons s rest ih =>
    simp only [validateSegments, List.all_cons, Bool.and_eq_true]
    exact ⟨validateSegment_timesSet loc clock n s hclock, ih _⟩

theorem validateUpsertProfile_of_set (loc : Location) (random : UUID) (clock : Clock)
    (Q : Profile) (h : Q.allSet = true) : validateUpsertProfile loc random clock Q = Q := by
  simp only [Profile.allSet, Bool.and_eq_true, Bool.not_eq_true', decide_eq_true_eq] at h
  obtain ⟨⟨⟨⟨hid, h1⟩, h2⟩, h3⟩, hsegs⟩ := h
  simp [validateUpsertProfile, hid, h1, h2, h3, validateSegments_of_set loc clock _ _ hsegs]

theorem civilFromDays_bounds (z : Int) (hz : -2 ≤ z) :
    1969 ≤ (civilFromDays z).1 ∧ 1 ≤ (civilFromDays z).2.1 ∧ (civilFromDays z).2.1 ≤ 12 ∧
      1 ≤ (civilFromDays z).2.2 := by
  simp only [civilFromDays]
  split_ifs <;> omega

theorem daysFromCivil_lower (y m d : Int) (hy : 1969 ≤ y) (hm1 : 1 ≤ m) (hm : m ≤ 12)
    (hd : 1 ≤ d) : -1000 ≤ daysFromCivil y m d := by
  simp only [daysFromCivil]
  split_ifs <;> omega

theorem addDate_not_zero (loc : Location) (t : Time) (years months : Int)
    (hyears : 0 ≤ years) (hmonths : 0 ≤ months)
    (ht : 0 ≤ t.sec ∧ -86400 ≤ t.offset ∧ t.offset ≤ 86400)
    (hloc : ∀ x, -86400 ≤ loc x ∧ loc x ≤ 86400) :
    (t.AddDate loc years months 0).IsZero = false := by
  have hsec : Time.zeroSec < (t.AddDate loc years months 0).sec := by
    simp only [Time.AddDate]
    have hz : -2 ≤ (t.sec + t.offset) / 86400 := by omega
    have hc := civilFromDays_bounds _ hz
    generalize civilFromDays ((t.sec + t.offset) / 86400) = c at hc ⊢
    obtain ⟨y, m, d⟩ := c
    simp only at hc ⊢
    obtain ⟨hy, hm1, hm12, hd⟩ := hc
    have hq : 0 ≤ (m - 1 + months) / 12 := Int.ediv_nonneg (by omega) (by omega)
    have hD : -1000 ≤ daysFromCivil (y + years + (m - 1 + months) / 12)
        ((m - 1 + months) % 12 + 1) (d + 0) :=
      daysFromCivil_lower _ _ _ (by omega) (by omega) (by omega) (by omega)
    generalize daysFromCivil (y + years + (m - 1 + months) / 12)
      ((m - 1 + months) % 12 + 1) (d + 0) = D at hD ⊢
    generalize hw : D * 86400 + (t.sec + t.offset) % 86400 = wall
    have h1 := hloc (wall - loc wall)
    simp only [Time.zeroSec]
    split_ifs <;> omega
  simp only [Time.IsZero, Bool.and_eq_false_iff, decide_eq_false_iff_not]
  exact Or.inl (ne_of_gt hsec)

/-- C14: validation is idempotent. `validateUpsertProfile` returns unchanged
every profile whose ID is not nil and whose timestamps, and those of every
segment, are not zero. When no reading of the clock, and no reading moved one
year or six months on, is the zero time, a validated profile is such a
profile, so validating it again, with any other randomness and clock, returns
it unchanged. Every clock that reads the Unix epoch or later, in zones within a
day of UTC, is such a clock. -/
theorem validateUpsertProfile_idempotent (loc : Location) (random random2 : UUID)
    (clock clock2 : Clock) (P : Profile)
    (hclock : ∀ k, (clock k).IsZero = false ∧ ((clock k).AddDate loc 1 0 0).IsZero = false ∧
      ((clock k).AddDate loc 0 6 0).IsZero = false) :
    (∀ (Q : Profile) (r : UUID) (c : Clock), Q.allSet = true →
      validateUpsertProfile loc r c Q = Q) ∧
    (validateUpsertProfile loc random clock P).allSet = true ∧
    validateUpsertProfile loc random2 clock2 (validateUpsertProfile loc random clock P) =
      validateUpsertProfile loc random clock P ∧
    (∀ c : Clock, (∀ k, 0 ≤ (c k).sec ∧ -86400 ≤ (c k).offset ∧ (c k).offset ≤ 86400) →
      (∀ x, -86400 ≤ loc x ∧ loc x ≤ 86400) →
      ∀ k, (c k).IsZero = false ∧ ((c k).AddDate loc 1 0 0).IsZero = false ∧
        ((c k).AddDate loc 0 6 0).IsZero = false) := by
  have hset : (validateUpsertProfile loc random clock P).allSet = true := by
    simp only [Profile.allSet, Bool.and_eq_true, Bool.not_eq_true', decide_eq_true_eq]
    refine ⟨⟨⟨⟨?_, ?_⟩, ?_⟩, ?_⟩,
      validateSegments_timesSet loc clock _ P.Segments (fun k => ⟨(hclock k).1, (hclock k).2.2⟩)⟩
    · unfold validateUpsertProfile
      by_cases hid : P.ID = UUID.Nil
      · simp only [hid, if_true]; exact uuidNew_ne_nil random
      · simp only [hid, if_false]; exact hid
    · unfold validateUpsertProfile
      by_cases h : P.CreatedAt.IsZero = true
      · simp [h, (hclock _).1]
      · simp [h]
    · unfold validateUpsertProfile
      by_cases h : P.UpdatedAt.IsZero = true
      · simp [h, (hclock _).1]
      · simp [h]
    · unfold validateUpsertProfile
      by_cases h : P.ExpiresAt.IsZero = true
      · simp [h, (hclock _).2.1]
      · simp [h]
  refine ⟨fun Q r c hQ => validateUpsertProfile_of_set loc r c Q hQ, hset,
    validateUpsertProfile_of_set loc random2 clock2 _ hset, ?_⟩
  intro c hc hloc k
  refine ⟨?_, addDate_not_zero loc (c k) 1 0 (by omega) (by omega) (hc k) hloc,
    addDate_not_zero loc (c k) 0 6 (by omega) (by omega) (hc k) hloc⟩
  have h0 := (hc k).1
  simp only [Time.IsZero, Time.zeroSec, Bool.and_eq_false_iff, decide_eq_false_iff_not]
  exact Or.inl (by omega)

/-- C14 on the sample inbound profile, which has no ID and no timestamps. -/
theorem validateUpsertProfile_idempotent_witness :
    (validateUpsertProfile (fun _ => 0) sampleID (fun _ => sampleTime) sampleInbound).allSet =
      true ∧
    validateUpsertProfile (fun _ => 0) UUID.Nil sampleClock
        (validateUpsertProfile (fun _ => 0) sampleID (fun _ => sampleTime) sampleInbound) =
      validateUpsertProfile (fun _ => 0) sampleID (fun _ => sampleTime) sampleInbound :=
  have h := validateUpsertProfile_idempotent (fun _ => 0) sampleID UUID.Nil
    (fun _ => sampleTime) sampleClock sampleInbound
    (fun _ => (by decide : sampleTime.IsZero = false ∧
      (sampleTime.AddDate (fun _ => 0) 1 0 0).IsZero = false ∧
      (sampleTime.AddDate (fun _ => 0) 0 6 0).IsZero = false))
  ⟨h.2.1, h.2.2.1⟩

/-- C15: validation fills the unset fields and nothing else. A nil ID becomes
the fresh identifier, which is not nil, and a set ID is kept; the Tags are
kept; an unset profile CreatedAt or UpdatedAt becomes a reading of the clock
and an unset ExpiresAt a reading moved one year on, set ones are kept; the
segments keep their number and order, each keeps its Type, Categories and
TopCategories and its set timestamps, and each unset CreatedAt or UpdatedAt
becomes a clock reading and each unset ExpiresAt a reading moved six months
on, field by field. When every reading of the clock is `now`, the filled values
are `now`, `now` plus one year and `now` plus six months. -/
theorem validateUpsertProfile_fills_unset (loc : Location) (random : UUID) (clock : Clock)
    (P : Profile) :
    ((validateUpsertProfile loc random clock P).ID =
      if P.ID = UUID.Nil then uuidNew random else P.ID) ∧
    uuidNew random ≠ UUID.Nil ∧
    (validateUpsertProfile loc random clock P).Tags = P.Tags ∧
    (if P.CreatedAt.IsZero then (validateUpsertProfile loc random clock P).CreatedAt = clock 0
      else (validateUpsertProfile loc random clock P).CreatedAt = P.CreatedAt) ∧
    (if P.UpdatedAt.IsZero then
        ∃ k, (validateUpsertProfile loc random clock P).UpdatedAt = clock k
      else (validateUpsertProfile loc random clock P).UpdatedAt = P.UpdatedAt) ∧
    (if P.ExpiresAt.IsZero then
        ∃ k, (validateUpsertProfile loc random clock P).ExpiresAt = (clock k).AddDate loc 1 0 0
      else (validateUpsertProfile loc random clock P).ExpiresAt = P.ExpiresAt) ∧
    (validateUpsertProfile loc random clock P).Segments.length = P.Segments.length ∧
    List.Forall₂ (Segment.filledFrom loc clock)
      (validateUpsertProfile loc random clock P).Segments P.Segments ∧
    (∀ now : Time,
      validateUpsertProfile loc random (fun _ => now) P =
        { ID := if P.ID = UUID.Nil then uuidNew random else P.ID
          Tags := P.Tags
          Segments := P.Segments.map (Segment.filledAt loc now)
          CreatedAt := if P.CreatedAt.IsZero then now else P.CreatedAt
          UpdatedAt := if P.UpdatedAt.IsZero then now else P.UpdatedAt
          ExpiresAt := if P.ExpiresAt.IsZero then now.AddDate loc 1 0 0 else P.ExpiresAt }) := by
  have hsegs : List.Forall₂ (Segment.filledFrom loc clock)
      (validateUpsertProfile loc random clock P).Segments P.Segments :=
    validateSegments_filledFrom loc clock _ P.Segments
  refine ⟨rfl, uuidNew_ne_nil random, rfl, ?_, ?_, ?_, hsegs.length_eq, hsegs, ?_⟩
  · unfold validateUpsertProfile
    by_cases h : P.CreatedAt.IsZero = true <;> simp [h]
  · unfold validateUpsertProfile
    by_cases h : P.UpdatedAt.IsZero = true
    · simp only [h, if_true]; exact ⟨_, rfl⟩
    · simp [h]
  · unfold validateUpsertProfile
    by_cases h : P.ExpiresAt.IsZero = true
    · simp only [h, if_true]; exact ⟨_, rfl⟩
    · simp [h]
  · intro now
    unfold validateUpsertProfile
    simp only [validateSegments_const]
    by_cases h1 : P.CreatedAt.IsZero = true <;> by_cases h2 : P.UpdatedAt.IsZero = true <;>
      by_cases h3 : P.ExpiresAt.IsZero = true <;> simp [h1, h2, h3]

/-- C13, counterexample: an inbound segment with categories and no top
categories. After validation and `toDBSegment` the stored TopCategories are
empty, while the derivation from its categories gives ent, news, tech. -/
theorem stored_topCategories_not_derived :
    (toDBItems (validateUpsertProfile (fun _ => 0) sampleID sampleClock sampleInbound)).2.map
        (fun s => s.TopCategories) = [[]] ∧
    sampleInbound.Segments.map
        (fun s => (extractTopCategories sampleSortSlice s.Categories).2) =
      [["ent", "news", "tech"]] ∧
    (toDBItems (validateUpsertProfile (fun _ => 0) sampleID sampleClock sampleInbound)).2.map
        (fun s => s.TopCategories) ≠
      sampleInbound.Segments.map
        (fun s => (extractTopCategories sampleSortSlice s.Categories).2) := by
  have h1 : (toDBItems (validateUpsertProfile (fun _ => 0) sampleID sampleClock
      sampleInbound)).2.map (fun s => s.TopCategories) = [[]] := by decide
  have h2 : sampleInbound.Segments.map
      (fun s => (extractTopCategories sampleSortSlice s.Categories).2) =
      [["ent", "news", "tech"]] := by
    simp [sampleInbound, sampleInboundSegment, extractTopCategories_ids,
      sampleSortSlice_sampleCategories, sampleCategoriesDescending]
  rw [h1, h2]
  exact ⟨rfl, rfl, by decide⟩

/-- C13, amended: the TopCategories stored on a segment item, and returned by
the round trip, are the TopCategories the inbound segment carried, segment by
segment: validation and `toDBSegment` copy them and never derive them from the
categories. So they are the top-3 derivation of the categories exactly when
the inbound segment already carried that derivation. -/
theorem stored_topCategories_are_inbound (loc : Location) (random : UUID) (clock : Clock)
    (P : Profile)
    (sortSlice : (Category → Category → Bool) → List Category → List Category) :
    List.Forall₂
      (fun (stored : segment) (s : Segment) =>
        stored.TopCategories = s.TopCategories ∧
        (toCanonicalSegment loc stored).TopCategories = s.TopCategories ∧
        (toCanonicalSegment loc stored).Categories = s.Categories ∧
        (stored.TopCategories = (extractTopCategories sortSlice s.Categories).2 ↔
          s.TopCategories = (extractTopCategories sortSlice s.Categories).2))
      (toDBItems (validateUpsertProfile loc random clock P)).2 P.Segments := by
  have hsegs : List.Forall₂ (Segment.filledFrom loc clock)
      (validateUpsertProfile loc random clock P).Segments P.Segments :=
    validateSegments_filledFrom loc clock _ P.Segments
  simp only [toDBItems, loMap_const, List.forall₂_map_left_iff]
  refine hsegs.imp ?_
  intro v s hvs
  obtain ⟨_, hcats, htop, _⟩ := hvs
  have hback := segment_back loc v (validateUpsertProfile loc random clock P).ID.String v.Typ
  refine ⟨htop, ?_, ?_, ?_⟩
  · rw [hback]; exact htop
  · rw [hback]; exact hcats
  · show v.TopCategories = _ ↔ _
    rw [htop]

/-! ## Sort keys under one prefix -/

theorem buildSK_cancel_head (p d1 d2 : String) (t1 t2 : Option Time)
    (hd1 : '#' ∉ d1.data) (hd2 : '#' ∉ d2.data) (h : buildSK p d1 t1 = buildSK p d2 t2) :
    d1 = d2 ∧ t1.map formatRFC3339 = t2.map formatRFC3339 := by
  have hdata := congrArg String.data h
  rw [buildSK_data, buildSK_data] at hdata
  have hrest := List.cons.inj (List.append_cancel_left hdata)
  have hrest := hrest.2
  cases t1 with
  | none =>
    cases t2 with
    | none =>
      simp only [List.append_nil] at hrest
      exact ⟨string_eq_of_data hrest, rfl⟩
    | some ts2 =>
      simp only [List.append_nil] at hrest
      exact absurd (hrest ▸ (by simp : '#' ∈ d2.data ++ '#' :: (formatRFC3339 ts2).data)) hd1
  | some ts1 =>
    cases t2 with
    | none =>
      simp only [List.append_nil] at hrest
      exact absurd (hrest ▸ (by simp : '#' ∈ d1.data ++ '#' :: (formatRFC3339 ts1).data)) hd2
    | some ts2 =>
      obtain ⟨hd, ht⟩ := split_at_separator _ _ _ _ hd1 hd2 hrest
      exact ⟨string_eq_of_data hd, by simp [string_eq_of_data ht]⟩

theorem formatRFC3339_same_second (t u : Time) (hsec : t.sec = u.sec)
    (hoff : t.offset = u.offset) : formatRFC3339 t = formatRFC3339 u := by
  simp only [formatRFC3339, hsec, hoff]

/-- C21: sort keys under one item prefix. For discriminators without `#`,
keys built with the same prefix are equal only when the discriminators are
equal and the timestamps are both absent or both present with the same
RFC 3339 text. Hence the segment items of `toDBItems P` have pairwise different
sort keys when the segment types of `P` hold no `#` and the pairs of Type and
rendered CreatedAt are pairwise different; and two segments of one Type whose
CreatedAt lie in the same Unix second at the same zone offset get the same sort
key, whatever their nanoseconds. -/
theorem buildSK_same_prefix_injective (p d1 d2 : String) (t1 t2 : Option Time)
    (hd1 : '#' ∉ d1.data) (hd2 : '#' ∉ d2.data) :
    (buildSK p d1 t1 = buildSK p d2 t2 →
      d1 = d2 ∧ t1.map formatRFC3339 = t2.map formatRFC3339) ∧
    (buildSK p d1 t1 = buildSK p d2 t2 →
      d1 = d2 ∧ ((t1 = none ∧ t2 = none) ∨
        ∃ ts1 ts2, t1 = some ts1 ∧ t2 = some ts2 ∧ formatRFC3339 ts1 = formatRFC3339 ts2)) ∧
    (∀ P : Profile, (∀ s ∈ P.Segments, '#' ∉ s.Typ.data) →
      (P.Segments.Pairwise fun a b =>
        (a.Typ, formatRFC3339 a.CreatedAt) ≠ (b.Typ, formatRFC3339 b.CreatedAt)) →
      (toDBItems P).2.Pairwise fun a b => a.SK ≠ b.SK) ∧
    (∀ (S1 S2 : Segment) (profileID : String), S1.Typ = S2.Typ →
      S1.CreatedAt.sec = S2.CreatedAt.sec → S1.CreatedAt.offset = S2.CreatedAt.offset →
      (toDBSegment S1 profileID S1.Typ).SK = (toDBSegment S2 profileID S2.Typ).SK) := by
  refine ⟨buildSK_cancel_head p d1 d2 t1 t2 hd1 hd2, ?_, ?_, ?_⟩
  · intro h
    obtain ⟨hd, ht⟩ := buildSK_cancel_head p d1 d2 t1 t2 hd1 hd2 h
    refine ⟨hd, ?_⟩
    cases t1 with
    | none =>
      cases t2 with
      | none => exact Or.inl ⟨rfl, rfl⟩
      | some ts2 => simp at ht
    | some ts1 =>
      cases t2 with
      | none => simp at ht
      | some ts2 => exact Or.inr ⟨ts1, ts2, rfl, rfl, by simpa using ht⟩
  · intro P htypes hdistinct
    simp only [toDBItems, loMap_const, List.pairwise_map]
    refine hdistinct.imp_of_mem ?_
    intro a b ha hb hne hsk
    have hsk2 : buildSK segmentItemKeyPrefix a.Typ (some a.CreatedAt) =
        buildSK segmentItemKeyPrefix b.Typ (some b.CreatedAt) := hsk
    obtain ⟨hty, ht⟩ := buildSK_cancel_head _ _ _ _ _ (htypes a ha) (htypes b hb) hsk2
    apply hne
    have ht2 : formatRFC3339 a.CreatedAt = formatRFC3339 b.CreatedAt := by simpa using ht
    rw [hty, ht2]
  · intro S1 S2 profileID hty hsec hoff
    show buildSK segmentItemKeyPrefix S1.Typ (some S1.CreatedAt) =
      buildSK segmentItemKeyPrefix S2.Typ (some S2.CreatedAt)
    simp only [buildSK, hty, formatRFC3339_same_second _ _ hsec hoff]

/-- C21 at the sample segments: a morning and an evening segment get different
keys, and two morning segments created five nanoseconds apart get one key. -/
theorem buildSK_same_prefix_injective_witness :
    ('#' ∉ "morning".data ∧ '#' ∉ "evening".data) ∧
    ((toDBItems sampleTwoSegments).2.Pairwise fun a b => a.SK ≠ b.SK) ∧
    sampleSegment.CreatedAt ≠ sampleSegmentLater.CreatedAt ∧
    (toDBSegment sampleSegment "p" sampleSegment.Typ).SK =
      (toDBSegment sampleSegmentLater "p" sampleSegmentLater.Typ).SK :=
  have h := buildSK_same_prefix_injective "SEG" "morning" "evening" (some sampleTime)
    (some sampleTime) (by decide) (by decide)
  ⟨⟨by decide, by decide⟩,
   h.2.2.1 sampleTwoSegments
    (by
      intro s hs
      simp only [sampleTwoSegments, List.mem_cons, List.mem_singleton, List.not_mem_nil,
        or_false] at hs
      rcases hs with rfl | rfl <;> decide)
    (by
      simp only [sampleTwoSegments, List.pairwise_cons, List.mem_singleton, forall_eq,
        List.not_mem_nil, false_implies, implies_true, List.Pairwise.nil, and_true]
      decide),
   by decide,
   h.2.2.2 sampleSegment sampleSegmentLater "p" rfl rfl rfl⟩

end PersonalisationPoc
